import Mathlib

/-!
UVR-LED-Test: PwmDriver and the serial command loop.

A shallow embedding of `src/PwmDriver.hpp` and of the command loop of
`src/main.cpp`.

Modelling conventions.

* A C `float` or `double` is represented by the rational number it denotes (`ℚ`).
  The driver only compares, stores and writes such values, which is exact; the
  arithmetic of `main.cpp` (`(float)led_duty/100.0`, `get_duty()*100.0`) is rounded
  to the nearest `float` or `double`, ties to even (`to_float`, `to_double`).
  NaN, infinities and the sign of zero are not represented: `main` cannot produce
  them.
* The mbed `PwmOut` base class is a record holding the value that `read()` returns
  and the log of every value handed to `write()`.  How the pin reacts to a write
  is a parameter (`HwResponse`); `faithful` is the register whose read returns the
  last value written.
* `pc.printf` output is a list of message tags (`Msg`).
* One pass through the body of `while(1)` in `main` is `loop_iteration`; its
  result records whether the body ended in `continue`, in `return`, or ran
  through to the final `wait(0.1)`.
-/

set_option autoImplicit false

namespace UVRLed

/-! ## Hardware: the `PwmOut` base class -/

/-- The three pins used by `main.cpp`. -/
inductive PinName where
  | D3
  | D5
  | D6
  deriving DecidableEq, Repr

/-- How the pin reacts to `write(v)`: from the level before the write and the
commanded value to the level that `read()` returns afterwards. -/
abbrev HwResponse := ℚ → ℚ → ℚ

/-- The register model: `read()` returns the last value written. -/
def faithful : HwResponse := fun _ v => v

/-- A faulty pin that ignores every write and keeps its level. -/
def stuck : HwResponse := fun old _ => old

/-- State of the mbed `PwmOut` peripheral object. -/
structure PwmOut where
  /-- the pin the peripheral drives -/
  pin : PinName
  /-- the period set by `period_ms` -/
  period : Int
  /-- the value `read()` returns -/
  level : ℚ
  /-- every value passed to `write`, most recent first -/
  writes : List ℚ
  deriving DecidableEq, Repr

namespace PwmOut

/-- `PwmOut(pin)`: the peripheral before any call, at power-on level `v0`. -/
def init (pin : PinName) (v0 : ℚ) : PwmOut :=
  { pin := pin, period := 0, level := v0, writes := [] }

/-- `PwmOut::period_ms`. -/
def period_ms (p : PwmOut) (ms : Int) : PwmOut :=
  { p with period := ms }

/-- `PwmOut::write`. -/
def write (hw : HwResponse) (p : PwmOut) (v : ℚ) : PwmOut :=
  { p with level := hw p.level v, writes := v :: p.writes }

/-- `PwmOut::read`. -/
def read (p : PwmOut) : ℚ := p.level

end PwmOut

/-! ## `PwmDriver` (src/PwmDriver.hpp) -/

/-- The class `PwmDriver : private PwmOut` with its three data members. -/
structure PwmDriver where
  /-- the private `PwmOut` base sub-object -/
  base : PwmOut
  /-- `float duty` -/
  duty : ℚ
  /-- `bool on` (`on` is reserved in Lean, hence the underscore) -/
  on_ : Bool
  /-- `PinName pin` -/
  pin : PinName
  deriving DecidableEq, Repr

namespace PwmDriver

/-- `PwmDriver(PinName _pin, int _period_ms)`; `v0` is the level of the pin before
the constructor runs. -/
def new (hw : HwResponse) (_pin : PinName) (_period_ms : Int) (v0 : ℚ) : PwmDriver :=
  { base := ((PwmOut.init _pin v0).period_ms _period_ms).write hw 0
    duty := 0
    on_ := false
    pin := _pin }

/-- `void turn_on()`. -/
def turn_on (hw : HwResponse) (d : PwmDriver) : PwmDriver :=
  let d1 := if !d.on_ then { d with base := d.base.write hw d.duty } else d
  { d1 with on_ := true }

/-- `void turn_off()`. -/
def turn_off (hw : HwResponse) (d : PwmDriver) : PwmDriver :=
  let d1 := { d with on_ := false }
  { d1 with base := d1.base.write hw 0 }

/-- `void set_duty(float _duty)`. -/
def set_duty (hw : HwResponse) (d : PwmDriver) (_duty : ℚ) : PwmDriver :=
  let d1 : PwmDriver :=
    if _duty < 0 then { d with duty := 0 }
    else if _duty > 1 then { d with duty := 1 }
    else { d with duty := _duty }
  if d1.on_ then { d1 with base := d1.base.write hw d1.duty } else d1

/-- `float get_duty() const`. -/
def get_duty (d : PwmDriver) : ℚ := d.duty

/-- `float get_api_duty()`. -/
def get_api_duty (d : PwmDriver) : ℚ := d.base.read

/-- `bool is_on() const`. -/
def is_on (d : PwmDriver) : Bool := d.on_

/-- `PinName get_pin() const`. -/
def get_pin (d : PwmDriver) : PinName := d.pin

/-- `~PwmDriver()`: the body of the destructor. -/
def destroy (hw : HwResponse) (d : PwmDriver) : PwmDriver := d.turn_off hw

/-- `PwmDriver(PwmDriver&& other)`: copies the base sub-object and the members. -/
def move (other : PwmDriver) : PwmDriver :=
  { base := other.base, duty := other.duty, on_ := other.on_, pin := other.pin }

end PwmDriver

/-- The three public mutators of `PwmDriver`. -/
inductive Op where
  | turn_on
  | turn_off
  | set_duty (v : ℚ)
  deriving DecidableEq, Repr

/-- Apply one mutator call. -/
def Op.apply (hw : HwResponse) (d : PwmDriver) : Op → PwmDriver
  | .turn_on => d.turn_on hw
  | .turn_off => d.turn_off hw
  | .set_duty v => d.set_duty hw v

/-- Apply a sequence of mutator calls, first call first. -/
def run_ops (hw : HwResponse) (d : PwmDriver) (ops : List Op) : PwmDriver :=
  ops.foldl (Op.apply hw) d

/-- The channel invariant of the data model: off means the pin reads 0, on means
the pin reads the cached duty. -/
def channel_inv (d : PwmDriver) : Prop :=
  (d.on_ = false → d.get_api_duty = 0) ∧ (d.on_ = true → d.get_api_duty = d.duty)

/-! ## The C library pieces used by `main.cpp` -/

/-- `isspace` in the C locale: space, `\t`, `\n`, `\v`, `\f`, `\r`. -/
def isspace (c : Char) : Bool :=
  c == ' ' || c == '\t' || c == '\n' || c == '\x0b' || c == '\x0c' || c == '\r'

/-- `isdigit`. -/
def isdigit (c : Char) : Bool :=
  48 ≤ c.toNat && c.toNat ≤ 57

/-- The C string held in a buffer: the characters before the first NUL. -/
def c_str (buf : List Char) : List Char :=
  buf.takeWhile (fun c => c != '\x00')

/-- `pc.scanf("%127[^\n]", line)`: at most 127 characters, none of them a newline,
taken from the front of what the transport delivers; `none` when not a single
character matches (`err != 1`). -/
def scanf_line (input : List Char) : Option (List Char) :=
  let buf := (input.takeWhile (fun c => c != '\n')).take 127
  if buf.isEmpty then none else some buf

/-- `sscanf(line, "%s", token)`: skip leading white space, then store the run of
non-white-space characters; `none` is the `EOF` result (nothing but white space). -/
def sscanf_s (line : List Char) : Option (List Char) :=
  let rest := line.dropWhile isspace
  if rest.isEmpty then none else some (rest.takeWhile (fun c => !isspace c))

/-- The `%*s` directive: skip white space, then a word; `none` when the input
ends first. -/
def skip_word (line : List Char) : Option (List Char) :=
  let rest := line.dropWhile isspace
  if rest.isEmpty then none else some (rest.dropWhile (fun c => !isspace c))

/-- The decimal digits at the front of the input, accumulated onto `acc`, and the
unread remainder. -/
def scan_digits : List Char → Nat → Nat × List Char
  | [], acc => (acc, [])
  | c :: cs, acc =>
    if isdigit c then scan_digits cs (acc * 10 + (c.toNat - 48)) else (acc, c :: cs)

/-- The value stored in a 32-bit `int` by the `%d` conversion.  For a numeral
outside the range of `int` the C standard leaves the behaviour undefined; the
model follows the library of the 32-bit target, which converts through `strtol`
and saturates at `INT_MIN` and `INT_MAX` (a library with a 64-bit `long` keeps
the low 32 bits instead).  Numerals within the range are stored as they are, and
no property below depends on the out-of-range case. -/
def to_int (v : Int) : Int :=
  if v < -2147483648 then -2147483648 else if v > 2147483647 then 2147483647 else v

/-- The `%d` directive: skip white space, an optional sign, at least one decimal
digit.  Returns the stored `int` and the unread remainder; `none` on a matching
failure or when the input ends first. -/
def scan_d (s : List Char) : Option (Int × List Char) :=
  let s1 := s.dropWhile isspace
  let signed : Bool × List Char :=
    match s1 with
    | '-' :: r => (true, r)
    | '+' :: r => (false, r)
    | r => (false, r)
  match signed.2 with
  | [] => none
  | c :: _ =>
    if isdigit c then
      let r := scan_digits signed.2 0
      some (to_int (if signed.1 then -(r.1 : Int) else (r.1 : Int)), r.2)
    else none

/-- `sscanf(line, "%*s%d", &x) == 1`, with the value stored in `x`. -/
def sscanf_sd (line : List Char) : Option Int :=
  match skip_word line with
  | none => none
  | some rest =>
    match scan_d rest with
    | none => none
    | some (x, _) => some x

/-- `sscanf(line, "%*s%d%d", &x, &y) == 2`, with the values stored in `x`, `y`. -/
def sscanf_sdd (line : List Char) : Option (Int × Int) :=
  match skip_word line with
  | none => none
  | some rest =>
    match scan_d rest with
    | none => none
    | some (x, rest1) =>
      match scan_d rest1 with
      | none => none
      | some (y, _) => some (x, y)

/-! ## Floating point -/

/-- Round to the nearest integer, ties to the even one. -/
def round_half_even (q : ℚ) : Int :=
  if q - ⌊q⌋ < 1 / 2 then ⌊q⌋
  else if q - ⌊q⌋ > 1 / 2 then ⌊q⌋ + 1
  else if ⌊q⌋ % 2 = 0 then ⌊q⌋ else ⌊q⌋ + 1

/-- Round to the nearest binary floating-point number with `prec` significand
bits and least normal exponent `emin`, ties to even (IEEE 754 round-to-nearest,
with gradual underflow; overflow to infinity is left out, the values of
`main.cpp` stay below `2^31`). -/
def round_binary (prec : Nat) (emin : Int) (x : ℚ) : ℚ :=
  if x = 0 then 0
  else
    let e := max (Int.log 2 |x|) emin
    let ulp : ℚ := 2 ^ (e - ((prec : Int) - 1))
    round_half_even (x / ulp) * ulp

/-- Conversion to a 32-bit `float` (binary32). -/
def to_float (x : ℚ) : ℚ := round_binary 24 (-126) x

/-- Conversion to a `double` (binary64). -/
def to_double (x : ℚ) : ℚ := round_binary 53 (-1022) x

/-- The initialiser `float percent_f = (float)led_duty/100.0`: the `int` is
converted to `float`, promoted to `double` for the division by the `double`
constant `100.0`, and the quotient is converted to `float` for the variable. -/
def percent_f (led_duty : Int) : ℚ :=
  to_float (to_double (to_float (led_duty : ℚ) / 100))

/-! ## `main.cpp` -/

/-- One row of `print_status`: index, pin, `get_duty()*100`, `get_api_duty()*100`,
`is_on()`. -/
structure StatusRow where
  /-- the 1-based number printed for the LED -/
  index : Nat
  /-- `led.get_pin()` -/
  pin : PinName
  /-- `led.get_duty()*100.0` -/
  set_duty : ℚ
  /-- `led.get_api_duty()*100.0` -/
  current_duty : ℚ
  /-- `led.is_on()` -/
  is_on : Bool
  deriving DecidableEq, Repr

/-- The texts `main.cpp` prints, one tag per `pc.printf` call. -/
inductive Msg where
  | banner
  | prompt
  | err_empty_line
  | err_whitespace
  | line_received (line : List Char)
  | err_led (size : Nat)
  | err_duty
  | setting_all (percent : Int)
  | setting (led_num percent : Int)
  | turning_on (led_num : Int)
  | turning_off (led_num : Int)
  | turning_on_all
  | turning_off_all
  | status_header
  | status (row : StatusRow)
  | help (size : Nat)
  | killing
  | terminated
  | err_invalid
  | fatal (pin : PinName)
  deriving DecidableEq, Repr

/-- Whether a message is one of the `ERROR:` reports. -/
def Msg.is_error : Msg → Bool
  | .err_empty_line => true
  | .err_whitespace => true
  | .err_led _ => true
  | .err_duty => true
  | .err_invalid => true
  | .fatal _ => true
  | _ => false

/-- The global `std::array<PwmDriver,3> leds`, any size. -/
abbrev Leds := List PwmDriver

/-- The statement `std::array<PwmDriver,3> leds{PwmDriver(D3),PwmDriver(D5),PwmDriver(D6)}`
with the default period of 1 ms; `v0` is the level of the pins at power-on. -/
def leds_init (hw : HwResponse) (v0 : ℚ) : Leds :=
  [ (PwmDriver.new hw .D3 1 v0).move, (PwmDriver.new hw .D5 1 v0).move,
    (PwmDriver.new hw .D6 1 v0).move ]

/-- `print_help()`. -/
def print_help (leds : Leds) : List Msg := [.help leds.length]

/-- The rows of `print_status()`, numbering from `i`. -/
def status_rows : Leds → Nat → List Msg
  | [], _ => []
  | led :: rest, i =>
    .status { index := i, pin := led.get_pin, set_duty := to_double (led.get_duty * 100),
              current_duty := to_double (led.get_api_duty * 100), is_on := led.is_on }
      :: status_rows rest (i + 1)

/-- `print_status()`. -/
def print_status (leds : Leds) : List Msg := .status_header :: status_rows leds 1

/-- The statements of `main` before its loop (lines 86-90). -/
def main_prologue (leds : Leds) : List Msg :=
  .banner :: (print_status leds ++ print_help leds)

/-- `bool valid_led(int led_num)` with what it prints. -/
def valid_led (leds : Leds) (led_num : Int) : Bool × List Msg :=
  if led_num < 1 || led_num > (leds.length : Int) then (false, [.err_led leds.length])
  else (true, [])

/-- `bool valid_duty(int percent)` with what it prints. -/
def valid_duty (percent : Int) : Bool × List Msg :=
  if percent < 0 || percent > 100 then (false, [.err_duty]) else (true, [])

/-- `void all_off()`. -/
def all_off (hw : HwResponse) (leds : Leds) : Leds :=
  leds.map (PwmDriver.turn_off hw)

/-- The loop at lines 115-127 of `main.cpp`, from the state
`(letter_found, word_count)`: only the space character separates words. -/
def count_words : List Char → Bool → Nat → Nat
  | [], _, word_count => word_count
  | c :: cs, letter_found, word_count =>
    if c == ' ' then count_words cs false word_count
    else if !letter_found then count_words cs true (word_count + 1)
    else count_words cs letter_found word_count

/-- How one pass through the loop body ends. -/
inductive Flow where
  /-- a `continue` statement: back to the loop head, the rest of the body skipped -/
  | continued
  /-- a `return` statement of `main` with its value -/
  | returned (code : Int)
  /-- fell out of the command chain / reached `wait(0.1)` at the end of the body -/
  | completed
  /-- `leds[i]` with `i` outside the array -/
  | undefined
  deriving DecidableEq, Repr

/-- The registry, the text printed and the way the pass ended. -/
structure Result where
  /-- the registry afterwards -/
  leds : Leds
  /-- the messages printed, in order -/
  out : List Msg
  /-- how control left -/
  flow : Flow
  deriving DecidableEq, Repr

/-- The expression `leds[i].f()`. -/
def at_index (leds : Leds) (i : Int) (f : PwmDriver → PwmDriver) : Option Leds :=
  if i < 0 then none
  else
    match leds[i.toNat]? with
    | none => none
    | some led => some (leds.set i.toNat (f led))

/-- The command chain of `main` (lines 131-207) for a line whose first token is
`token` and whose word count is `word_count`.  `Flow.completed` means control
falls out of the chain to the safety check. -/
def dispatch (hw : HwResponse) (leds : Leds) (line token : List Char) (word_count : Nat) :
    Result :=
  if token = "allduty".toList ∧ word_count = 2 ∧ (sscanf_sd line).isSome then
    let led_duty := (sscanf_sd line).getD 0
    let vd := valid_duty led_duty
    if !vd.1 then ⟨leds, vd.2, .continued⟩
    else
      ⟨leds.map (fun led => led.set_duty hw (percent_f led_duty)),
        vd.2 ++ [.setting_all led_duty],
        .completed⟩
  else if token = "duty".toList ∧ word_count = 3 ∧ (sscanf_sdd line).isSome then
    let led_num := ((sscanf_sdd line).getD (0, 0)).1
    let led_duty := ((sscanf_sdd line).getD (0, 0)).2
    let vl := valid_led leds led_num
    if !vl.1 then ⟨leds, vl.2, .continued⟩
    else
      let vd := valid_duty led_duty
      if !vd.1 then ⟨leds, vl.2 ++ vd.2, .continued⟩
      else
        let out := vl.2 ++ vd.2 ++ [.setting led_num led_duty]
        match at_index leds (led_num - 1) (fun led => led.set_duty hw (percent_f led_duty)) with
        | some leds1 => ⟨leds1, out, .completed⟩
        | none => ⟨leds, out, .undefined⟩
  else if token = "on".toList ∧ word_count = 2 ∧ (sscanf_sd line).isSome then
    let led_num := (sscanf_sd line).getD 0
    let vl := valid_led leds led_num
    if !vl.1 then ⟨leds, vl.2, .continued⟩
    else
      let out := vl.2 ++ [.turning_on led_num]
      match at_index leds (led_num - 1) (PwmDriver.turn_on hw) with
      | some leds1 => ⟨leds1, out, .completed⟩
      | none => ⟨leds, out, .undefined⟩
  else if token = "off".toList ∧ word_count = 2 ∧ (sscanf_sd line).isSome then
    let led_num := (sscanf_sd line).getD 0
    let vl := valid_led leds led_num
    if !vl.1 then ⟨leds, vl.2, .continued⟩
    else
      let out := vl.2 ++ [.turning_off led_num]
      match at_index leds (led_num - 1) (PwmDriver.turn_off hw) with
      | some leds1 => ⟨leds1, out, .completed⟩
      | none => ⟨leds, out, .undefined⟩
  else if token = "allon".toList ∧ word_count = 1 then
    ⟨leds.map (PwmDriver.turn_on hw), [.turning_on_all], .completed⟩
  else if token = "alloff".toList ∧ word_count = 1 then
    ⟨all_off hw leds, [.turning_off_all], .completed⟩
  else if token = "status".toList ∧ word_count = 1 then
    ⟨leds, print_status leds, .completed⟩
  else if token = "help".toList ∧ word_count = 1 then
    ⟨leds, print_help leds, .completed⟩
  else if token = "kill".toList then
    ⟨all_off hw leds, [.killing, .terminated], .returned 0⟩
  else
    ⟨leds, [.err_invalid], .completed⟩

/-- The safety check of `main` (lines 209-218): the first LED, in array order,
that is off while the pin reads a non-zero duty makes `main` print the fatal
error, call `all_off()` and return -1; otherwise control reaches `wait(0.1)`. -/
def safety_check (hw : HwResponse) (leds : Leds) : Result :=
  match leds.find? (fun led => !led.is_on && led.get_api_duty != 0) with
  | some led => ⟨all_off hw leds, [.fatal led.get_pin], .returned (-1)⟩
  | none => ⟨leds, [], .completed⟩

/-- One pass through the body of `while(1)` in `main` (lines 93-220); `input` is
what the transport delivers to this pass's `scanf`. -/
def loop_iteration (hw : HwResponse) (leds : Leds) (input : List Char) : Result :=
  match scanf_line input with
  | none => ⟨leds, [.prompt, .err_empty_line], .continued⟩
  | some buf =>
    let line := c_str buf
    match sscanf_s line with
    | none => ⟨leds, [.prompt, .err_whitespace], .continued⟩
    | some token =>
      let word_count := count_words line false 0
      let head := [Msg.prompt, .line_received line]
      let r := dispatch hw leds line token word_count
      match r.flow with
      | .completed =>
        let c := safety_check hw r.leds
        ⟨c.leds, head ++ r.out ++ c.out, c.flow⟩
      | _ => ⟨r.leds, head ++ r.out, r.flow⟩

/-- The loop of `main` over the inputs of successive passes, until a `return`
(or an out-of-bounds access) stops it.  Gives the registry and, when `main`
returned, its value. -/
def run_loop (hw : HwResponse) : Leds → List (List Char) → Leds × Option Flow
  | leds, [] => (leds, none)
  | leds, input :: rest =>
    let r := loop_iteration hw leds input
    match r.flow with
    | .returned code => (r.leds, some (.returned code))
    | .undefined => (r.leds, some .undefined)
    | _ => run_loop hw r.leds rest

/-! ## Vocabulary for the statements -/

/-- The C string a pass works on: the buffer filled by `scanf`, up to its first
NUL. -/
def line_of (input : List Char) : List Char :=
  c_str ((scanf_line input).getD [])

/-- The pass reads a line, its first token is `verb` and the word counter
gives `words`. -/
abbrev has_shape (input : List Char) (verb : String) (words : Nat) : Prop :=
  (scanf_line input).isSome = true ∧ sscanf_s (line_of input) = some verb.toList ∧
    count_words (line_of input) false 0 = words

/-- The line is read by `main` as `duty n p`: verb `duty`, three words, and
`sscanf` stores `n` and `p`. -/
abbrev is_duty_line (input : List Char) (n p : Int) : Prop :=
  has_shape input "duty" 3 ∧ sscanf_sdd (line_of input) = some (n, p)

/-- The line is read by `main` as `allduty p`. -/
abbrev is_allduty_line (input : List Char) (p : Int) : Prop :=
  has_shape input "allduty" 2 ∧ sscanf_sd (line_of input) = some p

/-- The line is read by `main` as `on n`. -/
abbrev is_on_line (input : List Char) (n : Int) : Prop :=
  has_shape input "on" 2 ∧ sscanf_sd (line_of input) = some n

/-- The line is read by `main` as `off n`. -/
abbrev is_off_line (input : List Char) (n : Int) : Prop :=
  has_shape input "off" 2 ∧ sscanf_sd (line_of input) = some n

/-- Every channel of the registry satisfies the channel invariant. -/
def registry_inv (leds : Leds) : Prop :=
  ∀ led ∈ leds, channel_inv led

/-- The registry states `main` can be in at the head of its loop, with the
register model of the hardware: those the loop produces from the constructed
registry on some finite sequence of inputs without having returned. -/
def Reachable (leds : Leds) : Prop :=
  ∃ (v0 : ℚ) (inputs : List (List Char)),
    run_loop faithful (leds_init faithful v0) inputs = (leds, none)

/-- Some LED is off while its pin reads a non-zero duty: the condition of the
safety check. -/
def mismatch (leds : Leds) : Prop :=
  ∃ led ∈ leds, led.is_on = false ∧ led.get_api_duty ≠ 0

/-- The line is read by `main` with `kill` as its first token. -/
abbrev is_kill_line (input : List Char) : Prop :=
  (scanf_line input).isSome = true ∧ sscanf_s (line_of input) = some "kill".toList

/-- The word count in the words of the specification: the number of maximal runs
of characters that are not white space, with the white space of `sscanf`'s `%s`
(`isspace`); `in_word` tells whether the previous character was part of a word. -/
def spec_word_count : List Char → Bool → Nat
  | [], _ => 0
  | c :: cs, in_word =>
    if isspace c then spec_word_count cs false
    else if in_word then spec_word_count cs true
    else spec_word_count cs true + 1

/-- The values handed to `write` between two states of a driver, most recent
first: what the write log gained. -/
def issued (before after : PwmDriver) : List ℚ :=
  after.base.writes.take (after.base.writes.length - before.base.writes.length)

/-- The observable state of a channel: cached duty, on flag and the duty the pin
reads. -/
def observable (d : PwmDriver) : ℚ × Bool × ℚ :=
  (d.get_duty, d.is_on, d.get_api_duty)

/-- Every channel is off and the last value written to its pin is 0. -/
def all_dark (leds : Leds) : Prop :=
  ∀ led ∈ leds, led.is_on = false ∧ led.base.writes.head? = some 0

/-- The word count each recognised verb requires in the command chain of `main`;
`kill` and unknown verbs require none. -/
def required_words (verb : String) : Option Nat :=
  if verb = "on" ∨ verb = "off" ∨ verb = "allduty" then some 2
  else if verb = "duty" then some 3
  else if verb = "allon" ∨ verb = "alloff" ∨ verb = "status" ∨ verb = "help" then some 1
  else none

/-- The rest of a pass once the command chain has left the registry `leds1`,
printed `msgs` and fallen through: the safety check on `leds1`. -/
def checked (hw : HwResponse) (leds1 : Leds) (input : List Char) (msgs : List Msg) : Result :=
  ⟨(safety_check hw leds1).leds,
    [Msg.prompt, .line_received (line_of input)] ++ msgs ++ (safety_check hw leds1).out,
    (safety_check hw leds1).flow⟩

/-! ## Lemmas on a single driver -/

theorem turn_on_of_on (hw : HwResponse) (d : PwmDriver) (h : d.on_ = true) :
    d.turn_on hw = d := by
  cases d with
  | mk base duty on_ pin =>
    simp only at h
    subst h
    rfl

theorem turn_on_of_off (hw : HwResponse) (d : PwmDriver) (h : d.on_ = false) :
    d.turn_on hw = { d with base := d.base.write hw d.duty, on_ := true } := by
  cases d with
  | mk base duty on_ pin =>
    simp only at h
    subst h
    rfl

/-- The value `set_duty` caches. -/
theorem set_duty_duty (hw : HwResponse) (d : PwmDriver) (v : ℚ) :
    (d.set_duty hw v).duty = if v < 0 then 0 else if v > 1 then 1 else v := by
  unfold PwmDriver.set_duty
  by_cases h0 : v < 0
  · by_cases hon : d.on_ = true <;> simp [h0, hon]
  · by_cases h1 : v > 1
    · by_cases hon : d.on_ = true <;> simp [h0, h1, hon]
    · by_cases hon : d.on_ = true <;> simp [h0, h1, hon]

theorem set_duty_on (hw : HwResponse) (d : PwmDriver) (v : ℚ) :
    (d.set_duty hw v).on_ = d.on_ := by
  unfold PwmDriver.set_duty
  by_cases h0 : v < 0
  · by_cases hon : d.on_ = true <;> simp [h0, hon]
  · by_cases h1 : v > 1
    · by_cases hon : d.on_ = true <;> simp [h0, h1, hon]
    · by_cases hon : d.on_ = true <;> simp [h0, h1, hon]

theorem set_duty_base_of_off (hw : HwResponse) (d : PwmDriver) (v : ℚ) (h : d.on_ = false) :
    (d.set_duty hw v).base = d.base := by
  unfold PwmDriver.set_duty
  by_cases h0 : v < 0
  · simp [h0, h]
  · by_cases h1 : v > 1
    · simp [h0, h1, h]
    · simp [h0, h1, h]

theorem set_duty_base_of_on (hw : HwResponse) (d : PwmDriver) (v : ℚ) (h : d.on_ = true) :
    (d.set_duty hw v).base = d.base.write hw (d.set_duty hw v).duty := by
  unfold PwmDriver.set_duty
  by_cases h0 : v < 0
  · simp [h0, h]
  · by_cases h1 : v > 1
    · simp [h0, h1, h]
    · simp [h0, h1, h]

theorem set_duty_pin (hw : HwResponse) (d : PwmDriver) (v : ℚ) :
    (d.set_duty hw v).pin = d.pin := by
  unfold PwmDriver.set_duty
  by_cases h0 : v < 0
  · by_cases hon : d.on_ = true <;> simp [h0, hon]
  · by_cases h1 : v > 1
    · by_cases hon : d.on_ = true <;> simp [h0, h1, hon]
    · by_cases hon : d.on_ = true <;> simp [h0, h1, hon]

/-- The cached value is the clamp of the argument to `[0, 1]`. -/
theorem clamp_eq (v : ℚ) :
    (if v < 0 then 0 else if v > 1 then 1 else v) = max 0 (min v 1) := by
  by_cases h0 : v < 0
  · have : min v 1 = v := min_eq_left (by linarith)
    simp [h0, this, le_of_lt h0]
  · by_cases h1 : v > 1
    · have : min v 1 = 1 := min_eq_right (le_of_lt h1)
      simp [h0, h1, this]
    · have h2 : min v 1 = v := min_eq_left (not_lt.mp h1)
      simp [h0, h1, h2, not_lt.mp h0]

theorem channel_inv_new (pin : PinName) (period : Int) (v0 : ℚ) :
    channel_inv (PwmDriver.new faithful pin period v0) := by
  constructor
  · intro _
    rfl
  · intro h
    exact absurd h (by simp [PwmDriver.new])

theorem channel_inv_turn_on (d : PwmDriver) (h : channel_inv d) :
    channel_inv (d.turn_on faithful) := by
  cases hon : d.on_ with
  | true => rw [turn_on_of_on _ _ hon]; exact h
  | false =>
    rw [turn_on_of_off _ _ hon]
    constructor
    · intro hf
      simp at hf
    · intro _
      rfl

theorem channel_inv_turn_off (d : PwmDriver) : channel_inv (d.turn_off faithful) := by
  constructor
  · intro _
    rfl
  · intro h
    exact absurd h (by simp [PwmDriver.turn_off])

theorem channel_inv_set_duty (d : PwmDriver) (v : ℚ) (h : channel_inv d) :
    channel_inv (d.set_duty faithful v) := by
  cases hon : d.on_ with
  | true =>
    constructor
    · intro hf
      rw [set_duty_on, hon] at hf
      exact absurd hf (by simp)
    · intro _
      unfold PwmDriver.get_api_duty
      rw [set_duty_base_of_on _ _ _ hon]
      rfl
  | false =>
    constructor
    · intro _
      unfold PwmDriver.get_api_duty
      rw [set_duty_base_of_off _ _ _ hon]
      exact h.1 hon
    · intro ht
      rw [set_duty_on, hon] at ht
      exact absurd ht (by simp)

theorem channel_inv_apply (d : PwmDriver) (op : Op) (h : channel_inv d) :
    channel_inv (op.apply faithful d) := by
  cases op with
  | turn_on => exact channel_inv_turn_on d h
  | turn_off => exact channel_inv_turn_off d
  | set_duty v => exact channel_inv_set_duty d v h

theorem channel_inv_run_ops (ops : List Op) (d : PwmDriver) (h : channel_inv d) :
    channel_inv (run_ops faithful d ops) := by
  induction ops generalizing d with
  | nil => exact h
  | cons op rest ih => exact ih (op.apply faithful d) (channel_inv_apply d op h)

/-! ## Properties of `PwmDriver` -/

/-- C1. Channel invariant over reachable states: with the register model of the
hardware, a freshly constructed driver has cached duty 0, is off and reads 0; and
after any finite sequence of `turn_on`, `turn_off` and `set_duty v` calls the pin
reads 0 when the driver is off and reads the cached duty when it is on (hence 0
when it is on with a cached duty of 0). -/
theorem channel_invariant_reachable (pin : PinName) (period : Int) (v0 : ℚ) (ops : List Op) :
    ((PwmDriver.new faithful pin period v0).get_duty = 0 ∧
      (PwmDriver.new faithful pin period v0).is_on = false ∧
      (PwmDriver.new faithful pin period v0).get_api_duty = 0) ∧
    ((run_ops faithful (PwmDriver.new faithful pin period v0) ops).is_on = false →
      (run_ops faithful (PwmDriver.new faithful pin period v0) ops).get_api_duty = 0) ∧
    ((run_ops faithful (PwmDriver.new faithful pin period v0) ops).is_on = true →
      (run_ops faithful (PwmDriver.new faithful pin period v0) ops).get_api_duty =
        (run_ops faithful (PwmDriver.new faithful pin period v0) ops).get_duty) ∧
    ((run_ops faithful (PwmDriver.new faithful pin period v0) ops).is_on = true →
      (run_ops faithful (PwmDriver.new faithful pin period v0) ops).get_duty = 0 →
      (run_ops faithful (PwmDriver.new faithful pin period v0) ops).get_api_duty = 0) := by
  have hinv := channel_inv_run_ops ops _ (channel_inv_new pin period v0)
  refine ⟨⟨rfl, rfl, rfl⟩, hinv.1, hinv.2, ?_⟩
  intro hon hz
  rw [← hz]
  exact hinv.2 hon

/-- Witness for C1: a driver put through `set_duty 3`, `turn_on`, `set_duty (-1)`
is on and the pin reads the cached duty. -/
theorem channel_invariant_reachable_witness :
    (run_ops faithful (PwmDriver.new faithful .D3 1 0)
        [.set_duty 3, .turn_on, .set_duty (-1)]).is_on = true ∧
    (run_ops faithful (PwmDriver.new faithful .D3 1 0)
        [.set_duty 3, .turn_on, .set_duty (-1)]).get_api_duty =
      (run_ops faithful (PwmDriver.new faithful .D3 1 0)
        [.set_duty 3, .turn_on, .set_duty (-1)]).get_duty :=
  ⟨by decide,
    (channel_invariant_reachable .D3 1 0 [.set_duty 3, .turn_on, .set_duty (-1)]).2.2.1
      (by decide)⟩

/-- C3. For every channel state and every duty input `v`, after `set_duty(v)` the
cached duty returned by `get_duty()` is `clamp(v, 0.0, 1.0)`: 0 when `v < 0`, 1
when `v > 1`, and `v` itself otherwise. -/
theorem set_duty_stores_clamp (hw : HwResponse) (d : PwmDriver) (v : ℚ) :
    (d.set_duty hw v).get_duty = max 0 (min v 1) ∧
    (d.set_duty hw v).get_duty = (if v < 0 then 0 else if v > 1 then 1 else v) := by
  have h := set_duty_duty hw d v
  exact ⟨by rw [← clamp_eq]; exact h, h⟩

/-- C4 as stated fails: from a fresh driver, `set_duty(2)` followed by `turn_on()`
leaves the pin reading 1, not 2. -/
theorem set_duty_turn_on_counterexample :
    (0 : ℚ) < 2 ∧
    (((PwmDriver.new faithful .D3 1 0).set_duty faithful 2).turn_on faithful).get_api_duty = 1 ∧
    (((PwmDriver.new faithful .D3 1 0).set_duty faithful 2).turn_on faithful).get_api_duty ≠ 2 := by
  decide

/-- C4, amended. For every channel state and every `d > 0`, with the register
model of the hardware, `set_duty(d)` followed by `turn_on()` leaves the live read
`get_api_duty()` equal to the clamped value `min(d, 1)`: equal to `d` when
`d ≤ 1`, equal to 1 when `d > 1`. -/
theorem set_duty_turn_on_reads_clamped (s : PwmDriver) (d : ℚ) (hd : 0 < d) :
    ((s.set_duty faithful d).turn_on faithful).get_api_duty = min d 1 ∧
    (d ≤ 1 → ((s.set_duty faithful d).turn_on faithful).get_api_duty = d) ∧
    (1 < d → ((s.set_duty faithful d).turn_on faithful).get_api_duty = 1) := by
  have hduty : (s.set_duty faithful d).duty = min d 1 := by
    rw [set_duty_duty, clamp_eq]
    exact max_eq_right (le_min (le_of_lt hd) zero_le_one)
  have hread : ((s.set_duty faithful d).turn_on faithful).get_api_duty = min d 1 := by
    cases hon : s.on_ with
    | true =>
      have hon1 : (s.set_duty faithful d).on_ = true := by rw [set_duty_on, hon]
      rw [turn_on_of_on _ _ hon1]
      unfold PwmDriver.get_api_duty
      rw [set_duty_base_of_on _ _ _ hon, hduty]
      rfl
    | false =>
      have hon1 : (s.set_duty faithful d).on_ = false := by rw [set_duty_on, hon]
      rw [turn_on_of_off _ _ hon1]
      exact hduty
  refine ⟨hread, ?_, ?_⟩
  · intro h1
    rw [hread]
    exact min_eq_left h1
  · intro h1
    rw [hread]
    exact min_eq_right (le_of_lt h1)

/-- Witness for C4 (amended): `d = 1/2` on a fresh driver. -/
theorem set_duty_turn_on_reads_clamped_witness :
    (0 : ℚ) < 1 / 2 ∧
    (((PwmDriver.new faithful .D3 1 0).set_duty faithful (1 / 2)).turn_on faithful).get_api_duty
      = 1 / 2 :=
  ⟨by norm_num,
    (set_duty_turn_on_reads_clamped (PwmDriver.new faithful .D3 1 0) (1 / 2) (by norm_num)).2.1
      (by norm_num)⟩

/-- C5. For every channel state whatsoever, `turn_off()` issues a hardware write
of 0, leaves `is_on()` false and leaves the cached duty (and the pin identity)
unchanged; with the register model of the hardware `get_api_duty()` is 0
afterwards. -/
theorem turn_off_forces_zero (hw : HwResponse) (d : PwmDriver) :
    (d.turn_off hw).base.writes = 0 :: d.base.writes ∧
    (d.turn_off hw).is_on = false ∧
    (d.turn_off hw).get_duty = d.get_duty ∧
    (d.turn_off hw).get_pin = d.get_pin ∧
    (d.turn_off faithful).get_api_duty = 0 :=
  ⟨rfl, rfl, rfl, rfl, rfl⟩

/-- C6. `set_duty` never energizes an off channel: when `on == false`, `set_duty(v)`
changes nothing but the cached duty (no hardware write, the pin level and the on
flag as before), and the next `turn_on()` writes exactly the cached value. -/
theorem set_duty_off_only_caches (hw : HwResponse) (d : PwmDriver) (v : ℚ)
    (hoff : d.is_on = false) :
    d.set_duty hw v = { d with duty := max 0 (min v 1) } ∧
    (d.set_duty hw v).base.writes = d.base.writes ∧
    (d.set_duty hw v).is_on = false ∧
    (d.set_duty hw v).get_api_duty = d.get_api_duty ∧
    (d.set_duty hw v).get_duty = max 0 (min v 1) ∧
    ((d.set_duty hw v).turn_on hw).base.writes = max 0 (min v 1) :: d.base.writes ∧
    ((d.set_duty hw v).turn_on hw).is_on = true := by
  have hoff1 : d.on_ = false := hoff
  have hduty : (d.set_duty hw v).duty = max 0 (min v 1) := by
    rw [set_duty_duty, clamp_eq]
  have hbase := set_duty_base_of_off hw d v hoff1
  have hon : (d.set_duty hw v).on_ = false := by rw [set_duty_on, hoff1]
  have hpin := set_duty_pin hw d v
  have heq : d.set_duty hw v = { d with duty := max 0 (min v 1) } := by
    cases hd : d.set_duty hw v with
    | mk b du o p =>
      rw [hd] at hduty hbase hon hpin
      simp only at hduty hbase hon hpin
      subst hduty hbase hpin
      rw [hon, hoff1]
  refine ⟨heq, by rw [hbase], hon, by unfold PwmDriver.get_api_duty; rw [hbase], hduty, ?_, ?_⟩
  · rw [turn_on_of_off _ _ hon]
    show (d.set_duty hw v).duty :: (d.set_duty hw v).base.writes = _
    rw [hduty, hbase]
  · rw [turn_on_of_off _ _ hon]
    rfl

/-- Witness for C6: `set_duty(3)` on a fresh (off) driver. -/
theorem set_duty_off_only_caches_witness :
    (PwmDriver.new faithful .D3 1 0).is_on = false ∧
    ((PwmDriver.new faithful .D3 1 0).set_duty faithful 3).base.writes =
      (PwmDriver.new faithful .D3 1 0).base.writes ∧
    (((PwmDriver.new faithful .D3 1 0).set_duty faithful 3).turn_on faithful).base.writes =
      max 0 (min 3 1) :: (PwmDriver.new faithful .D3 1 0).base.writes :=
  ⟨rfl,
    (set_duty_off_only_caches faithful (PwmDriver.new faithful .D3 1 0) 3 rfl).2.1,
    (set_duty_off_only_caches faithful (PwmDriver.new faithful .D3 1 0) 3 rfl).2.2.2.2.2.1⟩

/-- C7. For every channel state with `on == true`, `turn_on()` issues no hardware
write and leaves the whole state (cached duty, on flag, pin level, write log)
unchanged; `turn_on()` writes to the hardware exactly when the driver was off,
and then it writes the cached duty once. -/
theorem turn_on_writes_only_when_off (hw : HwResponse) (d : PwmDriver) :
    (d.is_on = true →
      d.turn_on hw = d ∧ (d.turn_on hw).base.writes.length = d.base.writes.length) ∧
    (d.is_on = false →
      (d.turn_on hw).base.writes = d.get_duty :: d.base.writes ∧ (d.turn_on hw).is_on = true) ∧
    ((d.turn_on hw).base.writes ≠ d.base.writes ↔ d.is_on = false) := by
  cases hon : d.on_ with
  | true =>
    have h := turn_on_of_on hw d hon
    refine ⟨fun _ => ⟨h, by rw [h]⟩, fun hf => ?_, ?_⟩
    · exact absurd (hon.symm.trans hf) (by simp)
    · rw [h]
      constructor
      · intro hne
        exact absurd rfl hne
      · intro hf
        exact absurd (hon.symm.trans hf) (by simp)
  | false =>
    have h := turn_on_of_off hw d hon
    refine ⟨fun ht => ?_, fun _ => ⟨by rw [h]; rfl, by rw [h]; rfl⟩, ?_⟩
    · exact absurd (hon.symm.trans ht) (by simp)
    · rw [h]
      constructor
      · intro _
        exact hon
      · intro _
        show d.duty :: d.base.writes ≠ d.base.writes
        intro hc
        have := congrArg List.length hc
        simp at this

/-- Witness for C7: a driver that is on (after `turn_on`) and a fresh one that is
off. -/
theorem turn_on_writes_only_when_off_witness :
    ((PwmDriver.new faithful .D3 1 0).turn_on faithful).is_on = true ∧
    ((PwmDriver.new faithful .D3 1 0).turn_on faithful).turn_on faithful =
      (PwmDriver.new faithful .D3 1 0).turn_on faithful ∧
    (PwmDriver.new faithful .D5 1 0).is_on = false ∧
    ((PwmDriver.new faithful .D5 1 0).turn_on faithful).base.writes =
      (PwmDriver.new faithful .D5 1 0).get_duty :: (PwmDriver.new faithful .D5 1 0).base.writes :=
  ⟨rfl,
    ((turn_on_writes_only_when_off faithful
      ((PwmDriver.new faithful .D3 1 0).turn_on faithful)).1 rfl).1,
    rfl,
    ((turn_on_writes_only_when_off faithful (PwmDriver.new faithful .D5 1 0)).2.1 rfl).1⟩

/-! ## Lemmas on the registry and the loop -/

theorem at_index_some (leds leds1 : Leds) (i : Int) (f : PwmDriver → PwmDriver)
    (h : at_index leds i f = some leds1) :
    0 ≤ i ∧ ∃ led, leds[i.toNat]? = some led ∧ leds1 = leds.set i.toNat (f led) := by
  unfold at_index at h
  by_cases hi : i < 0
  · simp [hi] at h
  · simp only [hi, if_false] at h
    cases hl : leds[i.toNat]? with
    | none => simp [hl] at h
    | some led =>
      simp only [hl, Option.some.injEq] at h
      exact ⟨not_lt.mp hi, led, rfl, h.symm⟩

theorem at_index_in_range (leds : Leds) (i : Int) (f : PwmDriver → PwmDriver)
    (h0 : 0 ≤ i) (h1 : i < leds.length) :
    ∃ led, leds[i.toNat]? = some led ∧ at_index leds i f = some (leds.set i.toNat (f led)) := by
  have hlt : i.toNat < leds.length := by omega
  refine ⟨leds[i.toNat], List.getElem?_eq_getElem hlt, ?_⟩
  unfold at_index
  simp [not_lt.mpr h0, List.getElem?_eq_getElem hlt]

theorem registry_inv_map (leds : Leds) (f : PwmDriver → PwmDriver)
    (hf : ∀ d, channel_inv d → channel_inv (f d)) (h : registry_inv leds) :
    registry_inv (leds.map f) := by
  intro led hmem
  obtain ⟨d, hd, rfl⟩ := List.mem_map.mp hmem
  exact hf d (h d hd)

theorem registry_inv_at_index (leds leds1 : Leds) (i : Int) (f : PwmDriver → PwmDriver)
    (hf : ∀ d, channel_inv d → channel_inv (f d)) (h : registry_inv leds)
    (hat : at_index leds i f = some leds1) : registry_inv leds1 := by
  obtain ⟨_, led, hled, rfl⟩ := at_index_some leds leds1 i f hat
  intro x hx
  rcases List.mem_or_eq_of_mem_set hx with hx1 | hx1
  · exact h x hx1
  · rw [hx1]
    exact hf led (h led (List.getElem?_mem hled))

theorem at_index_length (leds leds1 : Leds) (i : Int) (f : PwmDriver → PwmDriver)
    (hat : at_index leds i f = some leds1) : leds1.length = leds.length := by
  obtain ⟨_, led, _, rfl⟩ := at_index_some leds leds1 i f hat
  simp

theorem registry_inv_all_off (leds : Leds) : registry_inv (all_off faithful leds) := by
  intro led hmem
  obtain ⟨d, _, rfl⟩ := List.mem_map.mp hmem
  exact channel_inv_turn_off d

theorem dispatch_inv (leds : Leds) (line token : List Char) (wc : Nat)
    (h : registry_inv leds) : registry_inv (dispatch faithful leds line token wc).leds := by
  unfold dispatch
  dsimp only
  split_ifs <;> (try split) <;>
    first
    | exact h
    | exact registry_inv_all_off leds
    | exact registry_inv_map leds _ (fun d hd => channel_inv_set_duty d _ hd) h
    | exact registry_inv_map leds _ (fun d hd => channel_inv_turn_on d hd) h
    | (next leds1 hat =>
        exact registry_inv_at_index leds leds1 _ _ (fun d hd => channel_inv_set_duty d _ hd) h hat)
    | (next leds1 hat =>
        exact registry_inv_at_index leds leds1 _ _ (fun d hd => channel_inv_turn_on d hd) h hat)
    | (next leds1 hat =>
        exact registry_inv_at_index leds leds1 _ _ (fun d _ => channel_inv_turn_off d) h hat)

theorem dispatch_length (hw : HwResponse) (leds : Leds) (line token : List Char) (wc : Nat) :
    (dispatch hw leds line token wc).leds.length = leds.length := by
  unfold dispatch
  dsimp only
  split_ifs <;> (try split) <;>
    first
    | rfl
    | (next leds1 hat => exact at_index_length leds leds1 _ _ hat)
    | exact List.length_map _ _

/-- What a pass does with a line of a given shape: the command chain, then the
safety check unless the chain ended in `continue` or `return`. -/
theorem loop_iteration_of_shape (hw : HwResponse) (leds : Leds) (input : List Char)
    (verb : String) (words : Nat) (h : has_shape input verb words) :
    loop_iteration hw leds input =
      match (dispatch hw leds (line_of input) verb.toList words).flow with
      | .completed =>
        ⟨(safety_check hw (dispatch hw leds (line_of input) verb.toList words).leds).leds,
          [Msg.prompt, .line_received (line_of input)] ++
            (dispatch hw leds (line_of input) verb.toList words).out ++
            (safety_check hw (dispatch hw leds (line_of input) verb.toList words).leds).out,
          (safety_check hw (dispatch hw leds (line_of input) verb.toList words).leds).flow⟩
      | _ =>
        ⟨(dispatch hw leds (line_of input) verb.toList words).leds,
          [Msg.prompt, .line_received (line_of input)] ++
            (dispatch hw leds (line_of input) verb.toList words).out,
          (dispatch hw leds (line_of input) verb.toList words).flow⟩ := by
  obtain ⟨h1, h2, h3⟩ := h
  unfold line_of at h2 h3 ⊢
  unfold loop_iteration
  cases hs : scanf_line input with
  | none => simp [hs] at h1
  | some buf =>
    simp only [hs, Option.getD_some] at h2 h3 ⊢
    simp only [h2, h3]

theorem not_mismatch_of_inv (leds : Leds) (h : registry_inv leds) : ¬ mismatch leds := by
  rintro ⟨led, hmem, hoff, hne⟩
  exact hne ((h led hmem).1 hoff)

theorem safety_check_of_no_mismatch (hw : HwResponse) (leds : Leds) (h : ¬ mismatch leds) :
    safety_check hw leds = ⟨leds, [], .completed⟩ := by
  unfold safety_check
  have hnone : leds.find? (fun led => !led.is_on && led.get_api_duty != 0) = none := by
    rw [List.find?_eq_none]
    intro led hmem hp
    apply h
    simp only [Bool.and_eq_true, Bool.not_eq_true', bne_iff_ne, ne_eq] at hp
    exact ⟨led, hmem, hp.1, hp.2⟩
  rw [hnone]

theorem safety_check_of_mismatch (hw : HwResponse) (leds : Leds) (h : mismatch leds) :
    ∃ pin, safety_check hw leds = ⟨all_off hw leds, [.fatal pin], .returned (-1)⟩ := by
  unfold safety_check
  cases hf : leds.find? (fun led => !led.is_on && led.get_api_duty != 0) with
  | some led => exact ⟨led.get_pin, rfl⟩
  | none =>
    exfalso
    rw [List.find?_eq_none] at hf
    obtain ⟨led, hmem, hoff, hne⟩ := h
    apply hf led hmem
    simp [hoff, hne]

theorem loop_iteration_inv (leds : Leds) (input : List Char) (h : registry_inv leds) :
    registry_inv (loop_iteration faithful leds input).leds ∧
      (loop_iteration faithful leds input).flow ≠ .returned (-1) := by
  unfold loop_iteration
  cases hs : scanf_line input with
  | none => exact ⟨h, by simp⟩
  | some buf =>
    dsimp only
    cases ht : sscanf_s (c_str buf) with
    | none => exact ⟨h, by simp⟩
    | some token =>
      dsimp only
      have hd := dispatch_inv leds (c_str buf) token (count_words (c_str buf) false 0) h
      have hsc := safety_check_of_no_mismatch faithful _ (not_mismatch_of_inv _ hd)
      have hfl : ∀ code, (dispatch faithful leds (c_str buf) token
          (count_words (c_str buf) false 0)).flow = .returned code → code = 0 := by
        intro code
        unfold dispatch
        dsimp only
        split_ifs <;> (try split) <;> simp
        intro hc
        exact hc.symm
      cases hflow : (dispatch faithful leds (c_str buf) token
          (count_words (c_str buf) false 0)).flow with
      | completed =>
        dsimp only
        rw [hsc]
        exact ⟨hd, by simp⟩
      | continued => exact ⟨hd, by simp⟩
      | undefined => exact ⟨hd, by simp⟩
      | returned code =>
        refine ⟨hd, ?_⟩
        have := hfl code hflow
        subst this
        simp

theorem loop_iteration_length (hw : HwResponse) (leds : Leds) (input : List Char) :
    (loop_iteration hw leds input).leds.length = leds.length := by
  unfold loop_iteration
  cases hs : scanf_line input with
  | none => rfl
  | some buf =>
    dsimp only
    cases ht : sscanf_s (c_str buf) with
    | none => rfl
    | some token =>
      dsimp only
      have hlen := dispatch_length hw leds (c_str buf) token (count_words (c_str buf) false 0)
      cases hflow : (dispatch hw leds (c_str buf) token
          (count_words (c_str buf) false 0)).flow with
      | completed =>
        dsimp only
        unfold safety_check
        split
        · simp [all_off, hlen]
        · exact hlen
      | continued => exact hlen
      | undefined => exact hlen
      | returned code => exact hlen

theorem run_loop_inv (inputs : List (List Char)) (leds0 leds : Leds)
    (h : registry_inv leds0) (hrun : run_loop faithful leds0 inputs = (leds, none)) :
    registry_inv leds ∧ leds.length = leds0.length := by
  induction inputs generalizing leds0 with
  | nil =>
    simp only [run_loop, Prod.mk.injEq, and_true] at hrun
    subst hrun
    exact ⟨h, rfl⟩
  | cons input rest ih =>
    unfold run_loop at hrun
    dsimp only at hrun
    have hstep := loop_iteration_inv leds0 input h
    have hlen := loop_iteration_length faithful leds0 input
    cases hflow : (loop_iteration faithful leds0 input).flow with
    | returned code => simp [hflow] at hrun
    | undefined => simp [hflow] at hrun
    | continued =>
      simp only [hflow] at hrun
      have := ih _ hstep.1 hrun
      exact ⟨this.1, this.2.trans hlen⟩
    | completed =>
      simp only [hflow] at hrun
      have := ih _ hstep.1 hrun
      exact ⟨this.1, this.2.trans hlen⟩

theorem registry_inv_init (v0 : ℚ) : registry_inv (leds_init faithful v0) := by
  intro led hmem
  simp only [leds_init, List.mem_cons, List.mem_singleton, List.not_mem_nil, or_false] at hmem
  rcases hmem with rfl | rfl | rfl <;> exact channel_inv_new _ _ _

theorem reachable_inv (leds : Leds) (h : Reachable leds) :
    registry_inv leds ∧ leds.length = 3 := by
  obtain ⟨v0, inputs, hrun⟩ := h
  have := run_loop_inv inputs _ leds (registry_inv_init v0) hrun
  exact ⟨this.1, this.2⟩

/-- The `allduty` branch of the command chain. -/
theorem dispatch_allduty (hw : HwResponse) (leds : Leds) (line : List Char) (p : Int)
    (hp : sscanf_sd line = some p) :
    dispatch hw leds line "allduty".toList 2 =
      if p < 0 ∨ p > 100 then ⟨leds, [.err_duty], .continued⟩
      else ⟨leds.map (fun led => led.set_duty hw (percent_f p)), [.setting_all p],
        .completed⟩ := by
  unfold dispatch
  by_cases hbad : p < 0 ∨ p > 100
  · simp [hp, valid_duty, hbad]
  · simp [hp, valid_duty, hbad]

/-- The `duty` branch of the command chain. -/
theorem dispatch_duty (hw : HwResponse) (leds : Leds) (line : List Char) (n p : Int)
    (hp : sscanf_sdd line = some (n, p)) :
    dispatch hw leds line "duty".toList 3 =
      if n < 1 ∨ n > leds.length then ⟨leds, [.err_led leds.length], .continued⟩
      else if p < 0 ∨ p > 100 then ⟨leds, [.err_duty], .continued⟩
      else
        match at_index leds (n - 1) (fun led => led.set_duty hw (percent_f p)) with
        | some leds1 => ⟨leds1, [.setting n p], .completed⟩
        | none => ⟨leds, [.setting n p], .undefined⟩ := by
  have hne : ("duty".toList = "allduty".toList) = False := by decide
  unfold dispatch
  by_cases hn : n < 1 ∨ n > leds.length
  · simp [hne, hp, valid_led, hn]
  · by_cases hbad : p < 0 ∨ p > 100
    · simp [hne, hp, valid_led, valid_duty, hn, hbad]
    · simp [hne, hp, valid_led, valid_duty, hn, hbad]

/-- The `on` branch of the command chain. -/
theorem dispatch_on (hw : HwResponse) (leds : Leds) (line : List Char) (n : Int)
    (hp : sscanf_sd line = some n) :
    dispatch hw leds line "on".toList 2 =
      if n < 1 ∨ n > leds.length then ⟨leds, [.err_led leds.length], .continued⟩
      else
        match at_index leds (n - 1) (PwmDriver.turn_on hw) with
        | some leds1 => ⟨leds1, [.turning_on n], .completed⟩
        | none => ⟨leds, [.turning_on n], .undefined⟩ := by
  have hne1 : ("on".toList = "allduty".toList) = False := by decide
  have hne2 : ("on".toList = "duty".toList) = False := by decide
  unfold dispatch
  by_cases hn : n < 1 ∨ n > leds.length
  · simp [hne1, hne2, hp, valid_led, hn]
  · simp [hne1, hne2, hp, valid_led, hn]

/-- The `off` branch of the command chain. -/
theorem dispatch_off (hw : HwResponse) (leds : Leds) (line : List Char) (n : Int)
    (hp : sscanf_sd line = some n) :
    dispatch hw leds line "off".toList 2 =
      if n < 1 ∨ n > leds.length then ⟨leds, [.err_led leds.length], .continued⟩
      else
        match at_index leds (n - 1) (PwmDriver.turn_off hw) with
        | some leds1 => ⟨leds1, [.turning_off n], .completed⟩
        | none => ⟨leds, [.turning_off n], .undefined⟩ := by
  have hne1 : ("off".toList = "allduty".toList) = False := by decide
  have hne2 : ("off".toList = "duty".toList) = False := by decide
  have hne3 : ("off".toList = "on".toList) = False := by decide
  unfold dispatch
  by_cases hn : n < 1 ∨ n > leds.length
  · simp [hne1, hne2, hne3, hp, valid_led, hn]
  · simp [hne1, hne2, hne3, hp, valid_led, hn]

/-! ## Properties of the command loop -/

/-- C2, evaluated where it fails. With pins that ignore every write and sit at
full duty from power-on, every LED of the constructed registry is off while its
pin reads 1. The first line `duty 2 150` is rejected by the percentage check,
whose `continue` skips the safety check: no `turn_off()` is issued (the write
logs are as constructed) and `main` does not return. The unknown line `bogus`, on
the same registry, does reach the safety check: `all_off()` runs and `main`
returns -1. -/
theorem safety_check_skipped_by_continue :
    mismatch (leds_init stuck 1) ∧
    loop_iteration stuck (leds_init stuck 1) "duty 2 150".toList =
      ⟨leds_init stuck 1, [.prompt, .line_received "duty 2 150".toList, .err_duty],
        .continued⟩ ∧
    mismatch (loop_iteration stuck (leds_init stuck 1) "duty 2 150".toList).leds ∧
    (loop_iteration stuck (leds_init stuck 1) "duty 2 150".toList).flow ≠ .returned (-1) ∧
    loop_iteration stuck (leds_init stuck 1) "bogus".toList =
      ⟨all_off stuck (leds_init stuck 1),
        [.prompt, .line_received "bogus".toList, .err_invalid, .fatal .D3], .returned (-1)⟩ := by
  have hm : mismatch (leds_init stuck 1) :=
    ⟨(PwmDriver.new stuck .D3 1 1).move, List.mem_cons_self _ _, rfl, by decide⟩
  have h1 : loop_iteration stuck (leds_init stuck 1) "duty 2 150".toList =
      ⟨leds_init stuck 1, [.prompt, .line_received "duty 2 150".toList, .err_duty],
        .continued⟩ := by
    decide
  refine ⟨hm, h1, ?_, ?_, by decide⟩
  · rw [h1]
    exact hm
  · rw [h1]
    decide

/-- C8. Percentage validation rejects without mutation: for every registry, every
hardware behaviour, every channel number `n` (valid or not) and every `p` with
`p < 0` or `p > 100`, a line read as `duty n p` or as `allduty p` ends the pass in
`continue` with an error reported and the registry (cached duties, on flags,
pin levels and write logs) exactly as before. -/
theorem percentage_rejected_without_mutation (hw : HwResponse) (leds : Leds)
    (input : List Char) (n p : Int) (hp : p < 0 ∨ p > 100) :
    (is_duty_line input n p →
      loop_iteration hw leds input =
        ⟨leds, [.prompt, .line_received (line_of input),
          if n < 1 ∨ n > leds.length then .err_led leds.length else .err_duty], .continued⟩ ∧
      (loop_iteration hw leds input).out.any Msg.is_error = true) ∧
    (is_allduty_line input p →
      loop_iteration hw leds input =
        ⟨leds, [.prompt, .line_received (line_of input), .err_duty], .continued⟩ ∧
      (loop_iteration hw leds input).out.any Msg.is_error = true) := by
  constructor
  · rintro ⟨hshape, hargs⟩
    have heq : loop_iteration hw leds input =
        ⟨leds, [.prompt, .line_received (line_of input),
          if n < 1 ∨ n > leds.length then .err_led leds.length else .err_duty],
          .continued⟩ := by
      rw [loop_iteration_of_shape hw leds input "duty" 3 hshape, dispatch_duty hw leds _ n p hargs]
      by_cases hn : n < 1 ∨ n > leds.length
      · simp [hn]
      · simp [hn, hp]
    refine ⟨heq, ?_⟩
    rw [heq]
    by_cases hn : n < 1 ∨ n > leds.length
    · simp [hn, Msg.is_error]
    · simp [hn, Msg.is_error]
  · rintro ⟨hshape, hargs⟩
    have heq : loop_iteration hw leds input =
        ⟨leds, [.prompt, .line_received (line_of input), .err_duty], .continued⟩ := by
      rw [loop_iteration_of_shape hw leds input "allduty" 2 hshape,
        dispatch_allduty hw leds _ p hargs]
      simp [hp]
    refine ⟨heq, ?_⟩
    rw [heq]
    simp [Msg.is_error]

/-- Witness for C8: `duty 2 150` and `allduty -1` on the constructed registry. -/
theorem percentage_rejected_without_mutation_witness :
    ((150 : Int) < 0 ∨ (150 : Int) > 100) ∧
    is_duty_line "duty 2 150".toList 2 150 ∧
    (loop_iteration faithful (leds_init faithful 0) "duty 2 150".toList).leds =
      leds_init faithful 0 :=
  ⟨by decide, by decide,
    congrArg Result.leds
      ((percentage_rejected_without_mutation faithful (leds_init faithful 0)
        "duty 2 150".toList 2 150 (by decide)).1 (by decide)).1⟩

/-- C9. Index validation rejects without mutation: for a registry of size `N`,
every hardware behaviour and every `n` with `n < 1` or `n > N`, a line read as
`on n`, `off n` or `duty n p` (any `p`) ends the pass in `continue` with the LED
error reported and the registry exactly as before; in particular the array is
not indexed out of bounds. -/
theorem index_rejected_without_mutation (hw : HwResponse) (leds : Leds)
    (input : List Char) (n p : Int) (hn : n < 1 ∨ n > leds.length)
    (hline : is_on_line input n ∨ is_off_line input n ∨ is_duty_line input n p) :
    loop_iteration hw leds input =
      ⟨leds, [.prompt, .line_received (line_of input), .err_led leds.length], .continued⟩ ∧
    (loop_iteration hw leds input).out.any Msg.is_error = true ∧
    (loop_iteration hw leds input).flow ≠ .undefined := by
  have heq : loop_iteration hw leds input =
      ⟨leds, [.prompt, .line_received (line_of input), .err_led leds.length], .continued⟩ := by
    rcases hline with ⟨hshape, hargs⟩ | ⟨hshape, hargs⟩ | ⟨hshape, hargs⟩
    · rw [loop_iteration_of_shape hw leds input "on" 2 hshape, dispatch_on hw leds _ n hargs]
      simp [hn]
    · rw [loop_iteration_of_shape hw leds input "off" 2 hshape, dispatch_off hw leds _ n hargs]
      simp [hn]
    · rw [loop_iteration_of_shape hw leds input "duty" 3 hshape,
        dispatch_duty hw leds _ n p hargs]
      simp [hn]
  rw [heq]
  simp [Msg.is_error]

/-- Witness for C9: `on 0` and `on 4` on the constructed registry of size 3. -/
theorem index_rejected_without_mutation_witness :
    (((0 : Int) < 1 ∨ (0 : Int) > (leds_init faithful 0).length) ∧
      is_on_line "on 0".toList 0 ∧
      (loop_iteration faithful (leds_init faithful 0) "on 0".toList).leds =
        leds_init faithful 0) ∧
    (((4 : Int) < 1 ∨ (4 : Int) > (leds_init faithful 0).length) ∧
      is_on_line "on 4".toList 4 ∧
      (loop_iteration faithful (leds_init faithful 0) "on 4".toList).leds =
        leds_init faithful 0) :=
  ⟨⟨by decide, by decide,
      congrArg Result.leds
        (index_rejected_without_mutation faithful (leds_init faithful 0) "on 0".toList 0 0
          (by decide) (Or.inl (by decide))).1⟩,
    ⟨by decide, by decide,
      congrArg Result.leds
        (index_rejected_without_mutation faithful (leds_init faithful 0) "on 4".toList 4 0
          (by decide) (Or.inl (by decide))).1⟩⟩

/-- The 101 values of `percent_f` on the valid percentages: each lies in `[0, 1]`,
is the `float` nearest to the exact quotient, is within `2^-25` of it, and
equals it only for 0, 25, 50, 75 and 100. -/
theorem percent_f_table : ∀ k : Fin 101,
    0 ≤ percent_f ((k : ℕ) : ℤ) ∧ percent_f ((k : ℕ) : ℤ) ≤ 1 ∧
    percent_f ((k : ℕ) : ℤ) = to_float ((((k : ℕ) : ℤ) : ℚ) / 100) ∧
    |percent_f ((k : ℕ) : ℤ) - (((k : ℕ) : ℤ) : ℚ) / 100| ≤ 1 / 2 ^ 25 ∧
    (percent_f ((k : ℕ) : ℤ) = (((k : ℕ) : ℤ) : ℚ) / 100 ↔
      (k : ℕ) = 0 ∨ (k : ℕ) = 25 ∨ (k : ℕ) = 50 ∨ (k : ℕ) = 75 ∨ (k : ℕ) = 100) := by
  decide!

theorem percent_f_valid (p : Int) (hp0 : 0 ≤ p) (hp1 : p ≤ 100) :
    0 ≤ percent_f p ∧ percent_f p ≤ 1 ∧
    percent_f p = to_float ((p : ℚ) / 100) ∧
    |percent_f p - (p : ℚ) / 100| ≤ 1 / 2 ^ 25 ∧
    (percent_f p = (p : ℚ) / 100 ↔ p = 0 ∨ p = 25 ∨ p = 50 ∨ p = 75 ∨ p = 100) := by
  have hk : p.toNat < 101 := by omega
  have hcast : ((p.toNat : ℕ) : ℤ) = p := Int.toNat_of_nonneg hp0
  have h := percent_f_table ⟨p.toNat, hk⟩
  simp only [hcast] at h
  refine ⟨h.1, h.2.1, h.2.2.1, h.2.2.2.1, ?_⟩
  rw [h.2.2.2.2]
  omega

theorem set_duty_percent_f (hw : HwResponse) (d : PwmDriver) (p : Int)
    (hp0 : 0 ≤ p) (hp1 : p ≤ 100) : (d.set_duty hw (percent_f p)).duty = percent_f p := by
  obtain ⟨h0, h1, _⟩ := percent_f_valid p hp0 hp1
  rw [set_duty_duty, if_neg (not_lt.mpr h0), if_neg (not_lt.mpr h1)]

/-- C10 as stated fails: on the constructed registry `allduty 33` leaves every
channel with cached duty `11072963 / 2^25`, the `float` nearest to 0.33, which is
not 33/100. -/
theorem allduty_exact_percentage_counterexample :
    Reachable (leds_init faithful 0) ∧ (0 : Int) ≤ 33 ∧ (33 : Int) ≤ 100 ∧
    is_allduty_line "allduty 33".toList 33 ∧
    (loop_iteration faithful (leds_init faithful 0) "allduty 33".toList).leds.map
      PwmDriver.get_duty =
        [11072963 / 33554432, 11072963 / 33554432, 11072963 / 33554432] ∧
    (11072963 / 33554432 : ℚ) ≠ 33 / 100 := by
  refine ⟨⟨0, [], rfl⟩, by decide, by decide, by decide, by decide!, by norm_num⟩

/-- C10, amended. For every `p` in `[0, 100]` and every reachable state of the
3-channel registry (register model of the hardware), a line read as `allduty p`
runs through the safety check to the end of the pass, and afterwards every
channel has as cached duty the `float` value of `(float)p/100.0`; a channel that
was on is still on and its pin reads that value; a channel that was off is still
off and its pin reads 0. That value is the `float` nearest to `p/100`, within
`2^-25` of it, and it is `p/100` itself exactly for `p` in 0, 25, 50, 75, 100. -/
theorem allduty_stores_rounded_percentage (leds : Leds) (input : List Char) (p : Int)
    (hreach : Reachable leds) (hp0 : 0 ≤ p) (hp1 : p ≤ 100)
    (hline : is_allduty_line input p) :
    (loop_iteration faithful leds input).flow = .completed ∧
    leds.length = 3 ∧
    (loop_iteration faithful leds input).leds.length = 3 ∧
    (∀ i, i < 3 → ∃ led led1,
      leds[i]? = some led ∧ (loop_iteration faithful leds input).leds[i]? = some led1 ∧
      led1.get_duty = percent_f p ∧
      led1.is_on = led.is_on ∧
      (led.is_on = true → led1.get_api_duty = percent_f p) ∧
      (led.is_on = false → led1.get_api_duty = 0)) ∧
    percent_f p = to_float ((p : ℚ) / 100) ∧
    |percent_f p - (p : ℚ) / 100| ≤ 1 / 2 ^ 25 ∧
    (percent_f p = (p : ℚ) / 100 ↔ p = 0 ∨ p = 25 ∨ p = 50 ∨ p = 75 ∨ p = 100) := by
  obtain ⟨hinv, hlen⟩ := reachable_inv leds hreach
  obtain ⟨hshape, hargs⟩ := hline
  have hgood : ¬ (p < 0 ∨ p > 100) := by omega
  have hinv1 : registry_inv (leds.map (fun led => led.set_duty faithful (percent_f p))) :=
    registry_inv_map leds _ (fun d hd => channel_inv_set_duty d _ hd) hinv
  have heq : loop_iteration faithful leds input =
      ⟨leds.map (fun led => led.set_duty faithful (percent_f p)),
        [.prompt, .line_received (line_of input), .setting_all p], .completed⟩ := by
    rw [loop_iteration_of_shape faithful leds input "allduty" 2 hshape,
      dispatch_allduty faithful leds _ p hargs]
    simp only [hgood, if_false]
    rw [safety_check_of_no_mismatch faithful _ (not_mismatch_of_inv _ hinv1)]
    rfl
  obtain ⟨_, _, hnear, herr, hexact⟩ := percent_f_valid p hp0 hp1
  rw [heq]
  refine ⟨rfl, hlen, by simp [hlen], ?_, hnear, herr, hexact⟩
  intro i hi
  have hilt : i < leds.length := by omega
  refine ⟨leds[i], (leds[i]).set_duty faithful (percent_f p),
    List.getElem?_eq_getElem hilt, ?_, ?_, ?_, ?_, ?_⟩
  · simp [List.getElem?_eq_getElem hilt]
  · exact set_duty_percent_f faithful _ p hp0 hp1
  · exact set_duty_on faithful _ _
  · intro hon
    unfold PwmDriver.get_api_duty
    rw [set_duty_base_of_on faithful _ _ hon, set_duty_percent_f faithful _ p hp0 hp1]
    rfl
  · intro hoff
    unfold PwmDriver.get_api_duty
    rw [set_duty_base_of_off faithful _ _ hoff]
    exact (hinv _ (List.getElem_mem hilt)).1 hoff

/-- Witness for C10 (amended): `allduty 50` on the registry reached by `on 1`;
the value stored is exactly 50/100. -/
theorem allduty_stores_rounded_percentage_witness :
    Reachable (loop_iteration faithful (leds_init faithful 0) "on 1".toList).leds ∧
    (0 : Int) ≤ 50 ∧ (50 : Int) ≤ 100 ∧ is_allduty_line "allduty 50".toList 50 ∧
    (loop_iteration faithful (loop_iteration faithful (leds_init faithful 0) "on 1".toList).leds
      "allduty 50".toList).flow = .completed ∧
    percent_f 50 = ((50 : Int) : ℚ) / 100 ∧
    (loop_iteration faithful (loop_iteration faithful (leds_init faithful 0) "on 1".toList).leds
      "allduty 50".toList).leds.map observable =
        [(1 / 2, true, 1 / 2), (1 / 2, false, 0), (1 / 2, false, 0)] :=
  ⟨⟨0, ["on 1".toList], by decide⟩, by decide, by decide, by decide,
    (allduty_stores_rounded_percentage
      (loop_iteration faithful (leds_init faithful 0) "on 1".toList).leds "allduty 50".toList 50
      ⟨0, ["on 1".toList], by decide⟩ (by decide) (by decide) (by decide)).1,
    (allduty_stores_rounded_percentage
      (loop_iteration faithful (leds_init faithful 0) "on 1".toList).leds "allduty 50".toList 50
      ⟨0, ["on 1".toList], by decide⟩ (by decide) (by decide) (by decide)).2.2.2.2.2.2.2
      (by decide),
    by decide!⟩

/-! ## Parsing of arguments and words -/

/-- C11, evaluated where it fails. On the constructed registry the lines `on 1x`
and `on 1.5` are not reported as invalid: `%d` stops at the first character that
is not a digit, the line is read as `on 1` and LED 1 is turned on. In the same
way `duty 1 50%` is read as `duty 1 50`. -/
theorem malformed_integer_accepted :
    loop_iteration faithful (leds_init faithful 0) "on 1x".toList =
      ⟨[(PwmDriver.new faithful .D3 1 0).turn_on faithful, PwmDriver.new faithful .D5 1 0,
          PwmDriver.new faithful .D6 1 0],
        [.prompt, .line_received "on 1x".toList, .turning_on 1], .completed⟩ ∧
    loop_iteration faithful (leds_init faithful 0) "on 1.5".toList =
      ⟨[(PwmDriver.new faithful .D3 1 0).turn_on faithful, PwmDriver.new faithful .D5 1 0,
          PwmDriver.new faithful .D6 1 0],
        [.prompt, .line_received "on 1.5".toList, .turning_on 1], .completed⟩ ∧
    ((PwmDriver.new faithful .D3 1 0).turn_on faithful).is_on = true ∧
    (PwmDriver.new faithful .D3 1 0).is_on = false ∧
    is_duty_line "duty 1 50%".toList 1 50 ∧
    (leds_init faithful 0).map PwmDriver.get_duty = [0, 0, 0] ∧
    (loop_iteration faithful (leds_init faithful 0) "duty 1 50%".toList).leds.map
      PwmDriver.get_duty = [1 / 2, 0, 0] := by
  refine ⟨by decide, by decide, rfl, rfl, by decide, rfl, by decide!⟩

/-- The command chain on a recognised verb with a word count other than the
required one: the final `else`. -/
theorem dispatch_wrong_count (hw : HwResponse) (leds : Leds) (line : List Char)
    (verb : String) (words k : Nat) (hreq : required_words verb = some k) (hne : words ≠ k) :
    dispatch hw leds line verb.toList words = ⟨leds, [.err_invalid], .completed⟩ := by
  unfold required_words at hreq
  split_ifs at hreq with h1 h2 h3
  · obtain rfl : 2 = k := by simpa using hreq
    rcases h1 with rfl | rfl | rfl <;> simp [dispatch, hne]
  · obtain rfl : 3 = k := by simpa using hreq
    subst h2
    simp [dispatch, hne]
  · obtain rfl : 1 = k := by simpa using hreq
    rcases h3 with rfl | rfl | rfl | rfl <;> simp [dispatch, hne]

/-- A pass whose command chain neither changes the registry nor leaves the loop
body: the safety check then runs on the registry as it was. -/
theorem loop_iteration_of_noop (hw : HwResponse) (leds : Leds) (input : List Char)
    (verb : String) (words : Nat) (out : List Msg) (hshape : has_shape input verb words)
    (hd : dispatch hw leds (line_of input) verb.toList words = ⟨leds, out, .completed⟩) :
    loop_iteration hw leds input =
      ⟨(safety_check hw leds).leds,
        [Msg.prompt, .line_received (line_of input)] ++ out ++ (safety_check hw leds).out,
        (safety_check hw leds).flow⟩ := by
  rw [loop_iteration_of_shape hw leds input verb words hshape, hd]

theorem all_off_get_duty (hw : HwResponse) (leds : Leds) :
    (all_off hw leds).map PwmDriver.get_duty = leds.map PwmDriver.get_duty := by
  unfold all_off
  rw [List.map_map]
  rfl

theorem safety_check_get_duty (hw : HwResponse) (leds : Leds) :
    (safety_check hw leds).leds.map PwmDriver.get_duty = leds.map PwmDriver.get_duty := by
  unfold safety_check
  split
  · exact all_off_get_duty hw leds
  · rfl

/-- C12. A recognised verb with the wrong word count is rejected: when the first
token is `on`, `off`, `allduty` (2 words required), `duty` (3) or `allon`,
`alloff`, `status`, `help` (1) and the word count differs, the command chain
takes the invalid-command branch with the registry untouched (no cached duty, on
flag or write log changes); the pass prints the invalid-command error and goes on
to the safety check on that unchanged registry, so with no channel off at a
non-zero live duty the pass ends with the registry exactly as before. -/
theorem wrong_word_count_is_invalid (hw : HwResponse) (leds : Leds) (input : List Char)
    (verb : String) (words k : Nat) (hreq : required_words verb = some k) (hne : words ≠ k)
    (hshape : has_shape input verb words) :
    dispatch hw leds (line_of input) verb.toList words = ⟨leds, [.err_invalid], .completed⟩ ∧
    loop_iteration hw leds input =
      ⟨(safety_check hw leds).leds,
        [.prompt, .line_received (line_of input), .err_invalid] ++ (safety_check hw leds).out,
        (safety_check hw leds).flow⟩ ∧
    (loop_iteration hw leds input).leds.map PwmDriver.get_duty = leds.map PwmDriver.get_duty ∧
    (¬ mismatch leds →
      loop_iteration hw leds input =
        ⟨leds, [.prompt, .line_received (line_of input), .err_invalid], .completed⟩) := by
  have hd := dispatch_wrong_count hw leds (line_of input) verb words k hreq hne
  have hl := loop_iteration_of_noop hw leds input verb words _ hshape hd
  refine ⟨hd, hl, ?_, ?_⟩
  · rw [hl]
    exact safety_check_get_duty hw leds
  · intro hm
    rw [hl, safety_check_of_no_mismatch hw leds hm]
    rfl

/-- Witness for C12: `duty 1` (two words where `duty` requires three) on the
constructed registry. -/
theorem wrong_word_count_is_invalid_witness :
    required_words "duty" = some 3 ∧ (2 : Nat) ≠ 3 ∧ has_shape "duty 1".toList "duty" 2 ∧
    loop_iteration faithful (leds_init faithful 0) "duty 1".toList =
      ⟨leds_init faithful 0, [.prompt, .line_received (line_of "duty 1".toList), .err_invalid],
        .completed⟩ :=
  ⟨by decide, by decide, by decide,
    (wrong_word_count_is_invalid faithful (leds_init faithful 0) "duty 1".toList "duty" 2 3
      (by decide) (by decide) (by decide)).2.2.2
      (not_mismatch_of_inv _ (registry_inv_init 0))⟩

/-! ## Exits of the loop -/

theorem valid_led_in_range (leds : Leds) (n : Int) (h : ¬ (!(valid_led leds n).1) = true) :
    0 ≤ n - 1 ∧ n - 1 < leds.length := by
  unfold valid_led at h
  by_cases hn : n < 1 ∨ n > (leds.length : Int)
  · simp [hn] at h
  · omega

theorem at_index_ne_none (leds : Leds) (n : Int) (f : PwmDriver → PwmDriver)
    (h : ¬ (!(valid_led leds n).1) = true) : at_index leds (n - 1) f ≠ none := by
  obtain ⟨h0, h1⟩ := valid_led_in_range leds n h
  obtain ⟨led, _, hat⟩ := at_index_in_range leds (n - 1) f h0 h1
  rw [hat]
  simp

/-- The command chain never indexes `leds` out of bounds. -/
theorem dispatch_flow_ne_undefined (hw : HwResponse) (leds : Leds) (line token : List Char)
    (wc : Nat) : (dispatch hw leds line token wc).flow ≠ .undefined := by
  unfold dispatch
  dsimp only
  split_ifs <;> (try split) <;>
    first
    | (intro hc; cases hc; done)
    | (next hnone => exact absurd hnone (at_index_ne_none leds _ _ (by assumption)))

/-- The `kill` branch of the command chain, whatever the word count. -/
theorem dispatch_kill (hw : HwResponse) (leds : Leds) (line : List Char) (wc : Nat) :
    dispatch hw leds line "kill".toList wc =
      ⟨all_off hw leds, [.killing, .terminated], .returned 0⟩ := by
  simp [dispatch]

/-- The command chain returns from `main` only in the `kill` branch. -/
theorem dispatch_returned (hw : HwResponse) (leds : Leds) (line token : List Char)
    (wc : Nat) (code : Int) (h : (dispatch hw leds line token wc).flow = .returned code) :
    code = 0 ∧ token = "kill".toList := by
  unfold dispatch at h
  dsimp only at h
  split_ifs at h with h1 h2 h3 h4 h5 h6 h7 h8 h9 h10 h11 h12 h13
  all_goals
    first
    | (cases h; done)
    | (split at h <;> cases h)
    | (injection h with hc; exact ⟨hc.symm, by assumption⟩)

theorem safety_check_flow (hw : HwResponse) (leds : Leds) :
    safety_check hw leds = ⟨leds, [], .completed⟩ ∨
    ∃ pin, safety_check hw leds = ⟨all_off hw leds, [.fatal pin], .returned (-1)⟩ := by
  by_cases hm : mismatch leds
  · exact Or.inr (safety_check_of_mismatch hw leds hm)
  · exact Or.inl (safety_check_of_no_mismatch hw leds hm)

/-- A pass never indexes `leds` out of bounds. -/
theorem loop_iteration_flow_ne_undefined (hw : HwResponse) (leds : Leds) (input : List Char) :
    (loop_iteration hw leds input).flow ≠ .undefined := by
  unfold loop_iteration
  cases hs : scanf_line input with
  | none => simp
  | some buf =>
    dsimp only
    cases ht : sscanf_s (c_str buf) with
    | none => simp
    | some token =>
      dsimp only
      have hu := dispatch_flow_ne_undefined hw leds (c_str buf) token
        (count_words (c_str buf) false 0)
      cases hflow : (dispatch hw leds (c_str buf) token
          (count_words (c_str buf) false 0)).flow with
      | completed =>
        dsimp only
        rcases safety_check_flow hw (dispatch hw leds (c_str buf) token
          (count_words (c_str buf) false 0)).leds with h | ⟨pin, h⟩ <;> rw [h] <;> simp
      | continued => simp
      | undefined => exact absurd hflow hu
      | returned code => simp

/-- A pass on a line whose first token is `kill`. -/
theorem loop_iteration_kill (hw : HwResponse) (leds : Leds) (input : List Char)
    (hk : is_kill_line input) :
    loop_iteration hw leds input =
      ⟨all_off hw leds, [.prompt, .line_received (line_of input), .killing, .terminated],
        .returned 0⟩ := by
  have hshape : has_shape input "kill" (count_words (line_of input) false 0) :=
    ⟨hk.1, hk.2, rfl⟩
  rw [loop_iteration_of_shape hw leds input "kill" _ hshape, dispatch_kill]
  rfl

/-- The two ways a pass returns from `main`: the `kill` branch with 0, after
`all_off()`, or the safety check with -1, after `all_off()`. -/
theorem loop_iteration_returned (hw : HwResponse) (leds : Leds) (input : List Char)
    (code : Int) (h : (loop_iteration hw leds input).flow = .returned code) :
    (code = 0 ∧ is_kill_line input ∧ (loop_iteration hw leds input).leds = all_off hw leds) ∨
    (code = -1 ∧ ∃ leds1, leds1.length = leds.length ∧ mismatch leds1 ∧
      (loop_iteration hw leds input).leds = all_off hw leds1) := by
  unfold loop_iteration at h ⊢
  unfold is_kill_line line_of
  cases hs : scanf_line input with
  | none => simp [hs] at h
  | some buf =>
    simp only [hs] at h ⊢
    cases ht : sscanf_s (c_str buf) with
    | none => simp [ht] at h
    | some token =>
      simp only [ht] at h ⊢
      cases hflow : (dispatch hw leds (c_str buf) token
          (count_words (c_str buf) false 0)).flow with
      | completed =>
        simp only [hflow] at h ⊢
        right
        by_cases hm : mismatch (dispatch hw leds (c_str buf) token
            (count_words (c_str buf) false 0)).leds
        · obtain ⟨pin, hsc⟩ := safety_check_of_mismatch hw _ hm
          rw [hsc] at h ⊢
          simp only [Flow.returned.injEq] at h
          exact ⟨h.symm, _, dispatch_length hw leds _ _ _, hm, rfl⟩
        · rw [safety_check_of_no_mismatch hw _ hm] at h
          simp at h
      | continued => simp [hflow] at h
      | undefined => simp [hflow] at h
      | returned c =>
        simp only [hflow, Flow.returned.injEq] at h ⊢
        left
        obtain ⟨hc, htok⟩ := dispatch_returned hw leds _ _ _ c hflow
        subst htok
        rw [dispatch_kill]
        exact ⟨h ▸ hc, ⟨rfl, ht⟩, rfl⟩

theorem all_dark_all_off (hw : HwResponse) (leds : Leds) : all_dark (all_off hw leds) := by
  intro led hmem
  obtain ⟨d, _, rfl⟩ := List.mem_map.mp hmem
  exact ⟨rfl, rfl⟩

/-- C13. For every registry, every hardware behaviour and every line whose first
token is `kill`, whatever follows it, the pass calls `turn_off()` on every channel
(each ends off with 0 as the last value written), prints the termination texts
and returns 0 from `main`; the safety check is not run: no fatal message and no
return of -1, whatever the pins read. -/
theorem kill_turns_everything_off (hw : HwResponse) (leds : Leds) (input : List Char)
    (hk : is_kill_line input) :
    loop_iteration hw leds input =
      ⟨all_off hw leds, [.prompt, .line_received (line_of input), .killing, .terminated],
        .returned 0⟩ ∧
    (loop_iteration hw leds input).leds = leds.map (PwmDriver.turn_off hw) ∧
    (∀ led ∈ (loop_iteration hw leds input).leds,
      led.is_on = false ∧ led.base.writes.head? = some 0) ∧
    (loop_iteration hw leds input).flow ≠ .returned (-1) ∧
    (∀ pin, Msg.fatal pin ∉ (loop_iteration hw leds input).out) := by
  have h := loop_iteration_kill hw leds input hk
  rw [h]
  refine ⟨rfl, rfl, all_dark_all_off hw leds, by simp, ?_⟩
  intro pin
  simp

/-- Witness for C13: `kill all now` with pins stuck at full duty: every LED is
still off at a non-zero live duty afterwards, and `main` returns 0. -/
theorem kill_turns_everything_off_witness :
    is_kill_line "kill all now".toList ∧
    mismatch (all_off stuck (leds_init stuck 1)) ∧
    loop_iteration stuck (leds_init stuck 1) "kill all now".toList =
      ⟨all_off stuck (leds_init stuck 1),
        [.prompt, .line_received (line_of "kill all now".toList), .killing, .terminated],
        .returned 0⟩ :=
  ⟨by decide,
    ⟨((PwmDriver.new stuck .D3 1 1).move).turn_off stuck, List.mem_cons_self _ _, rfl,
      by decide⟩,
    (kill_turns_everything_off stuck (leds_init stuck 1) "kill all now".toList (by decide)).1⟩

/-- C14. No exit path leaves a channel energized: for every registry, hardware
behaviour and input, if the pass returns from `main`, the value is 0 or -1 and
the registry is the result of `turn_off()` on every channel, so every channel is
off and the last value written to its pin is 0; the destructors that run after
the return keep it so. -/
theorem every_exit_turns_everything_off (hw : HwResponse) (leds : Leds) (input : List Char)
    (code : Int) (h : (loop_iteration hw leds input).flow = .returned code) :
    (code = 0 ∨ code = -1) ∧
    (∃ leds1 : Leds, leds1.length = leds.length ∧
      (loop_iteration hw leds input).leds = leds1.map (PwmDriver.turn_off hw)) ∧
    (∀ led ∈ (loop_iteration hw leds input).leds,
      led.is_on = false ∧ led.base.writes.head? = some 0) ∧
    (∀ led ∈ (loop_iteration hw leds input).leds.map (PwmDriver.destroy hw),
      led.is_on = false ∧ led.base.writes.head? = some 0) := by
  have hdestroy : ∀ l : Leds, all_dark (l.map (PwmDriver.destroy hw)) :=
    fun l => all_dark_all_off hw l
  rcases loop_iteration_returned hw leds input code h with ⟨hc, _, heq⟩ | ⟨hc, leds1, hlen, _, heq⟩
  · refine ⟨Or.inl hc, ⟨leds, rfl, heq⟩, ?_, hdestroy _⟩
    rw [heq]
    exact all_dark_all_off hw leds
  · refine ⟨Or.inr hc, ⟨leds1, hlen, heq⟩, ?_, hdestroy _⟩
    rw [heq]
    exact all_dark_all_off hw leds1

/-- Witness for C14: the fatal exit on the line `bogus` with pins stuck at full
duty. -/
theorem every_exit_turns_everything_off_witness :
    (loop_iteration stuck (leds_init stuck 1) "bogus".toList).flow = .returned (-1) ∧
    (∀ led ∈ (loop_iteration stuck (leds_init stuck 1) "bogus".toList).leds,
      led.is_on = false ∧ led.base.writes.head? = some 0) :=
  ⟨by decide,
    (every_exit_turns_everything_off stuck (leds_init stuck 1) "bogus".toList (-1)
      (by decide)).2.2.1⟩

/-! ## Writes and observable state of a driver -/

theorem issued_of_cons (before after : PwmDriver) (v : ℚ)
    (h : after.base.writes = v :: before.base.writes) : issued before after = [v] := by
  unfold issued
  rw [h]
  simp

theorem issued_of_same (before after : PwmDriver)
    (h : after.base.writes = before.base.writes) : issued before after = [] := by
  unfold issued
  rw [h]
  simp

/-- What each mutator adds to the write log and how it leaves the on flag. -/
theorem apply_writes (hw : HwResponse) (d : PwmDriver) (op : Op) :
    ((op.apply hw d).base.writes = d.base.writes ∧ issued d (op.apply hw d) = []) ∨
    ((op.apply hw d).is_on = false ∧ (op.apply hw d).base.writes = 0 :: d.base.writes ∧
      issued d (op.apply hw d) = [0]) ∨
    ((op.apply hw d).is_on = true ∧
      (op.apply hw d).base.writes = (op.apply hw d).get_duty :: d.base.writes ∧
      issued d (op.apply hw d) = [(op.apply hw d).get_duty]) := by
  cases op with
  | turn_on =>
    cases hon : d.on_ with
    | true =>
      left
      have h : (Op.turn_on.apply hw d).base.writes = d.base.writes := by
        show (d.turn_on hw).base.writes = _
        rw [turn_on_of_on hw d hon]
      exact ⟨h, issued_of_same _ _ h⟩
    | false =>
      right
      right
      have h : (Op.turn_on.apply hw d).base.writes =
          (Op.turn_on.apply hw d).get_duty :: d.base.writes := by
        show (d.turn_on hw).base.writes = (d.turn_on hw).duty :: _
        rw [turn_on_of_off hw d hon]
        rfl
      refine ⟨?_, h, issued_of_cons _ _ _ h⟩
      show (d.turn_on hw).on_ = true
      rw [turn_on_of_off hw d hon]
  | turn_off =>
    right
    left
    exact ⟨rfl, rfl, issued_of_cons _ _ _ rfl⟩
  | set_duty v =>
    cases hon : d.on_ with
    | true =>
      right
      right
      have h : ((Op.set_duty v).apply hw d).base.writes =
          ((Op.set_duty v).apply hw d).get_duty :: d.base.writes := by
        show (d.set_duty hw v).base.writes = (d.set_duty hw v).duty :: _
        rw [set_duty_base_of_on hw d v hon]
        rfl
      refine ⟨?_, h, issued_of_cons _ _ _ h⟩
      show (d.set_duty hw v).on_ = true
      rw [set_duty_on, hon]
    | false =>
      left
      have h : ((Op.set_duty v).apply hw d).base.writes = d.base.writes := by
        show (d.set_duty hw v).base.writes = _
        rw [set_duty_base_of_off hw d v hon]
      exact ⟨h, issued_of_same _ _ h⟩

/-- C15. Non-zero hardware writes happen only for an on driver: for every channel
state, hardware behaviour and mutator call (`turn_on`, `turn_off`, `set_duty v`
with any `v`), the call appends the values it writes to the log, and if it leaves
the driver off every value it wrote is 0, so a non-zero write comes only from a
call that leaves the driver on. The constructor writes a single 0 and leaves
the driver off; the destructor writes a single 0 and leaves it off; the move
constructor writes nothing. -/
theorem nonzero_writes_only_when_on (hw : HwResponse) (d : PwmDriver) (op : Op)
    (pin : PinName) (period : Int) (v0 : ℚ) :
    (op.apply hw d).base.writes = issued d (op.apply hw d) ++ d.base.writes ∧
    ((op.apply hw d).is_on = false → ∀ v ∈ issued d (op.apply hw d), v = 0) ∧
    (∀ v ∈ issued d (op.apply hw d), v ≠ 0 → (op.apply hw d).is_on = true) ∧
    ((PwmDriver.new hw pin period v0).base.writes = [0] ∧
      (PwmDriver.new hw pin period v0).is_on = false) ∧
    ((d.destroy hw).base.writes = 0 :: d.base.writes ∧ issued d (d.destroy hw) = [0] ∧
      (d.destroy hw).is_on = false) ∧
    (d.move.base.writes = d.base.writes ∧ issued d d.move = []) := by
  have hzero : (op.apply hw d).is_on = false → ∀ v ∈ issued d (op.apply hw d), v = 0 := by
    intro hoff v hv
    rcases apply_writes hw d op with ⟨_, hi⟩ | ⟨_, _, hi⟩ | ⟨hon, _, _⟩
    · rw [hi] at hv
      simp at hv
    · rw [hi] at hv
      simpa using hv
    · rw [hon] at hoff
      exact absurd hoff (by simp)
  refine ⟨?_, hzero, ?_, ⟨rfl, rfl⟩, ⟨rfl, issued_of_cons _ _ _ rfl, rfl⟩,
    ⟨rfl, issued_of_same _ _ rfl⟩⟩
  · rcases apply_writes hw d op with ⟨hw1, hi⟩ | ⟨_, hw1, hi⟩ | ⟨_, hw1, hi⟩ <;>
      rw [hi, hw1] <;> rfl
  · intro v hv hne
    cases hon : (op.apply hw d).is_on with
    | true => rfl
    | false => exact absurd (hzero hon v hv) hne

/-- Witness for C15: `set_duty 1` on a driver that is on writes 1 and leaves it
on; `turn_off` afterwards writes 0 and leaves it off. -/
theorem nonzero_writes_only_when_on_witness :
    issued ((PwmDriver.new faithful .D3 1 0).turn_on faithful)
      ((Op.set_duty 1).apply faithful ((PwmDriver.new faithful .D3 1 0).turn_on faithful))
      = [1] ∧
    ((Op.set_duty 1).apply faithful
      ((PwmDriver.new faithful .D3 1 0).turn_on faithful)).is_on = true ∧
    (Op.turn_off.apply faithful
      ((PwmDriver.new faithful .D3 1 0).turn_on faithful)).is_on = false ∧
    (∀ v ∈ issued ((PwmDriver.new faithful .D3 1 0).turn_on faithful)
      (Op.turn_off.apply faithful ((PwmDriver.new faithful .D3 1 0).turn_on faithful)),
      v = 0) :=
  ⟨by decide,
    (nonzero_writes_only_when_on faithful ((PwmDriver.new faithful .D3 1 0).turn_on faithful)
      (.set_duty 1) .D3 1 0).2.2.1 1 (by decide) (by decide),
    by decide,
    (nonzero_writes_only_when_on faithful ((PwmDriver.new faithful .D3 1 0).turn_on faithful)
      .turn_off .D3 1 0).2.1 (by decide)⟩

/-- C16. `turn_off` is idempotent: for every channel state, with the register
model of the hardware, the observable state (cached duty, on flag, duty read
from the pin) after two `turn_off()` calls in a row is the observable state
after one. -/
theorem turn_off_idempotent (d : PwmDriver) :
    observable ((d.turn_off faithful).turn_off faithful) = observable (d.turn_off faithful) ∧
    ((d.turn_off faithful).turn_off faithful).get_duty = (d.turn_off faithful).get_duty ∧
    ((d.turn_off faithful).turn_off faithful).is_on = (d.turn_off faithful).is_on ∧
    ((d.turn_off faithful).turn_off faithful).get_api_duty =
      (d.turn_off faithful).get_api_duty :=
  ⟨rfl, rfl, rfl, rfl⟩

/-! ## The word counter -/

/-- On a line whose only white space is the space character the loop of `main`
counts the white-space-delimited words. -/
theorem count_words_of_spaces_only (line : List Char)
    (h : ∀ c ∈ line, isspace c = true → c = ' ') (letter_found : Bool) (n : Nat) :
    count_words line letter_found n = n + spec_word_count line letter_found := by
  induction line generalizing letter_found n with
  | nil => rfl
  | cons c cs ih =>
    have hcs : ∀ x ∈ cs, isspace x = true → x = ' ' :=
      fun x hx => h x (List.mem_cons_of_mem _ hx)
    unfold count_words spec_word_count
    by_cases hc : c = ' '
    · subst hc
      have hsp : isspace ' ' = true := by decide
      simp only [beq_self_eq_true, if_true, hsp]
      exact ih hcs false n
    · have hns : isspace c = false := by
        cases hsp : isspace c with
        | false => rfl
        | true => exact absurd (h c (List.mem_cons_self _ _) hsp) hc
      have hbeq : (c == ' ') = false := by simpa using hc
      cases letter_found with
      | true =>
        simp only [hbeq, hns, Bool.false_eq_true, if_false, Bool.not_true, if_true]
        exact ih hcs true n
      | false =>
        simp only [hbeq, hns, Bool.false_eq_true, if_false, Bool.not_false, if_true]
        rw [ih hcs true (n + 1)]
        omega

/-- C17, evaluated where it fails. The line `on<TAB>1` has two maximal runs of
non-white-space characters and `%s` reads `on` as its first token, but the word
counter of `main` gives 1: the line is reported as invalid. The line
`allon<TAB>x` has two such runs as well, is counted as one word and turns every
LED on. -/
theorem word_count_ignores_tabs :
    scanf_line "on\t1".toList = some "on\t1".toList ∧
    sscanf_s "on\t1".toList = some "on".toList ∧
    spec_word_count "on\t1".toList false = 2 ∧
    count_words "on\t1".toList false 0 = 1 ∧
    loop_iteration faithful (leds_init faithful 0) "on\t1".toList =
      ⟨leds_init faithful 0, [.prompt, .line_received "on\t1".toList, .err_invalid],
        .completed⟩ ∧
    spec_word_count "allon\tx".toList false = 2 ∧
    count_words "allon\tx".toList false 0 = 1 ∧
    loop_iteration faithful (leds_init faithful 0) "allon\tx".toList =
      ⟨(leds_init faithful 0).map (PwmDriver.turn_on faithful),
        [.prompt, .line_received "allon\tx".toList, .turning_on_all], .completed⟩ := by
  refine ⟨by decide, by decide, by decide, by decide, by decide, by decide, by decide,
    by decide⟩

/-! ## The commands that reach the safety check -/

theorem loop_iteration_of_completed (hw : HwResponse) (leds leds1 : Leds) (input : List Char)
    (verb : String) (words : Nat) (msgs : List Msg) (hshape : has_shape input verb words)
    (hd : dispatch hw leds (line_of input) verb.toList words = ⟨leds1, msgs, .completed⟩) :
    loop_iteration hw leds input = checked hw leds1 input msgs := by
  rw [loop_iteration_of_shape hw leds input verb words hshape, hd]
  rfl

theorem checked_of_no_mismatch (hw : HwResponse) (leds1 : Leds) (input : List Char)
    (msgs : List Msg) (h : ¬ mismatch leds1) :
    checked hw leds1 input msgs =
      ⟨leds1, [Msg.prompt, .line_received (line_of input)] ++ msgs, .completed⟩ := by
  unfold checked
  rw [safety_check_of_no_mismatch hw leds1 h]
  simp

theorem dispatch_allon (hw : HwResponse) (leds : Leds) (line : List Char) :
    dispatch hw leds line "allon".toList 1 =
      ⟨leds.map (PwmDriver.turn_on hw), [.turning_on_all], .completed⟩ := by
  simp [dispatch]

theorem dispatch_alloff (hw : HwResponse) (leds : Leds) (line : List Char) :
    dispatch hw leds line "alloff".toList 1 =
      ⟨all_off hw leds, [.turning_off_all], .completed⟩ := by
  simp [dispatch]

theorem dispatch_status (hw : HwResponse) (leds : Leds) (line : List Char) :
    dispatch hw leds line "status".toList 1 = ⟨leds, print_status leds, .completed⟩ := by
  simp [dispatch]

theorem dispatch_help (hw : HwResponse) (leds : Leds) (line : List Char) :
    dispatch hw leds line "help".toList 1 = ⟨leds, print_help leds, .completed⟩ := by
  simp [dispatch]

theorem turn_on_is_on (hw : HwResponse) (d : PwmDriver) : (d.turn_on hw).is_on = true := by
  cases hon : d.on_ with
  | true => rw [turn_on_of_on hw d hon]; exact hon
  | false => rw [turn_on_of_off hw d hon]; rfl

theorem turn_on_get_duty (hw : HwResponse) (d : PwmDriver) :
    (d.turn_on hw).get_duty = d.get_duty := by
  cases hon : d.on_ with
  | true => rw [turn_on_of_on hw d hon]
  | false => rw [turn_on_of_off hw d hon]; rfl

theorem not_mismatch_all_on (hw : HwResponse) (leds : Leds) :
    ¬ mismatch (leds.map (PwmDriver.turn_on hw)) := by
  rintro ⟨led, hmem, hoff, _⟩
  obtain ⟨d, _, rfl⟩ := List.mem_map.mp hmem
  rw [turn_on_is_on] at hoff
  exact absurd hoff (by simp)

/-- With the register model of the hardware, the loop started in a registry that
satisfies the channel invariant keeps the invariant, never returns -1, and
returns at all only on a `kill` line. -/
theorem run_loop_faithful (inputs : List (List Char)) (leds0 : Leds)
    (h : registry_inv leds0) :
    registry_inv (run_loop faithful leds0 inputs).1 ∧
    (run_loop faithful leds0 inputs).2 ≠ some (.returned (-1)) ∧
    ((∀ input ∈ inputs, ¬ is_kill_line input) → (run_loop faithful leds0 inputs).2 = none) := by
  induction inputs generalizing leds0 with
  | nil => exact ⟨h, by simp [run_loop], fun _ => rfl⟩
  | cons input rest ih =>
    have hstep := loop_iteration_inv leds0 input h
    have hundef := loop_iteration_flow_ne_undefined faithful leds0 input
    unfold run_loop
    dsimp only
    cases hflow : (loop_iteration faithful leds0 input).flow with
    | returned code =>
      dsimp only
      refine ⟨hstep.1, ?_, ?_⟩
      · intro hc
        simp only [Option.some.injEq] at hc
        exact hstep.2 (hflow.trans hc)
      · intro hnk
        exfalso
        rcases loop_iteration_returned faithful leds0 input code hflow with
          ⟨_, hk, _⟩ | ⟨hc, _⟩
        · exact hnk input (List.mem_cons_self _ _) hk
        · exact hstep.2 (hc ▸ hflow)
    | undefined => exact absurd hflow hundef
    | continued =>
      dsimp only
      have := ih _ hstep.1
      exact ⟨this.1, this.2.1, fun hnk =>
        this.2.2 (fun x hx => hnk x (List.mem_cons_of_mem _ hx))⟩
    | completed =>
      dsimp only
      have := ih _ hstep.1
      exact ⟨this.1, this.2.1, fun hnk =>
        this.2.2 (fun x hx => hnk x (List.mem_cons_of_mem _ hx))⟩

/-- C19. The fatal branch is unreachable with faithful hardware: from the
constructed 3-channel registry, with pins whose read returns the last value
written, after any finite sequence of inputs the loop has not returned -1 and no
channel is off at a non-zero live duty, whatever command comes next the registry
handed to the safety check has no such channel either, and when no line has
`kill` as its first token the loop has not returned at all, after the whole
sequence and after each of its prefixes. -/
theorem fatal_branch_unreachable (v0 : ℚ) (inputs : List (List Char)) :
    (run_loop faithful (leds_init faithful v0) inputs).2 ≠ some (.returned (-1)) ∧
    ¬ mismatch (run_loop faithful (leds_init faithful v0) inputs).1 ∧
    (∀ (line token : List Char) (wc : Nat),
      ¬ mismatch (dispatch faithful (run_loop faithful (leds_init faithful v0) inputs).1
        line token wc).leds) ∧
    (∀ input, (loop_iteration faithful (run_loop faithful (leds_init faithful v0) inputs).1
      input).flow ≠ .returned (-1)) ∧
    ((∀ input ∈ inputs, ¬ is_kill_line input) →
      ∀ k, (run_loop faithful (leds_init faithful v0) (inputs.take k)).2 = none ∧
        ¬ mismatch (run_loop faithful (leds_init faithful v0) (inputs.take k)).1) := by
  have hrun := run_loop_faithful inputs _ (registry_inv_init v0)
  refine ⟨hrun.2.1, not_mismatch_of_inv _ hrun.1, ?_, ?_, ?_⟩
  · intro line token wc
    exact not_mismatch_of_inv _ (dispatch_inv _ line token wc hrun.1)
  · intro input
    exact (loop_iteration_inv _ input hrun.1).2
  · intro hnk k
    have hk := run_loop_faithful (inputs.take k) _ (registry_inv_init v0)
    exact ⟨hk.2.2 (fun x hx => hnk x (List.mem_of_mem_take hx)), not_mismatch_of_inv _ hk.1⟩

/-- Witness for C19: four lines without `kill`; the loop has not returned. -/
theorem fatal_branch_unreachable_witness :
    (∀ input ∈ ["on 1".toList, "duty 1 50".toList, "off 1".toList, "bogus".toList],
      ¬ is_kill_line input) ∧
    (run_loop faithful (leds_init faithful 0)
      (["on 1".toList, "duty 1 50".toList, "off 1".toList, "bogus".toList].take 4)).2 = none :=
  ⟨by decide,
    ((fatal_branch_unreachable 0
      ["on 1".toList, "duty 1 50".toList, "off 1".toList, "bogus".toList]).2.2.2.2
      (by decide) 4).1⟩

/-! ## The read-only and the all-channel commands -/

/-- C20. For every registry and every hardware behaviour: a one-word `status` or
`help` line leaves the registry untouched in the command chain (no write, no
change of cached duty or on flag) and only prints; a one-word `allon` line ends
the pass with `turn_on()` applied to every channel, each of them on with its
cached duty unchanged, the cached duty written only to the channels that were off;
a one-word `alloff` line ends the pass with every channel off, 0 as its last
written value and its cached duty unchanged. After `status` and `help` the safety
check runs on the untouched registry, so with no channel off at a non-zero live
duty the pass ends with the registry exactly as before. -/
theorem read_only_and_all_channel_commands (hw : HwResponse) (leds : Leds)
    (input : List Char) :
    (has_shape input "status" 1 →
      dispatch hw leds (line_of input) "status".toList 1 =
        ⟨leds, print_status leds, .completed⟩ ∧
      loop_iteration hw leds input = checked hw leds input (print_status leds) ∧
      (¬ mismatch leds → loop_iteration hw leds input =
        ⟨leds, [.prompt, .line_received (line_of input)] ++ print_status leds, .completed⟩)) ∧
    (has_shape input "help" 1 →
      dispatch hw leds (line_of input) "help".toList 1 = ⟨leds, print_help leds, .completed⟩ ∧
      loop_iteration hw leds input = checked hw leds input (print_help leds) ∧
      (¬ mismatch leds → loop_iteration hw leds input =
        ⟨leds, [.prompt, .line_received (line_of input)] ++ print_help leds, .completed⟩)) ∧
    (has_shape input "allon" 1 →
      loop_iteration hw leds input =
        ⟨leds.map (PwmDriver.turn_on hw),
          [.prompt, .line_received (line_of input), .turning_on_all], .completed⟩ ∧
      (∀ led ∈ (loop_iteration hw leds input).leds, led.is_on = true) ∧
      (loop_iteration hw leds input).leds.map PwmDriver.get_duty =
        leds.map PwmDriver.get_duty ∧
      (∀ led ∈ leds, (led.is_on = true → (led.turn_on hw).base.writes = led.base.writes) ∧
        (led.is_on = false →
          (led.turn_on hw).base.writes = led.get_duty :: led.base.writes))) ∧
    (has_shape input "alloff" 1 →
      dispatch hw leds (line_of input) "alloff".toList 1 =
        ⟨leds.map (PwmDriver.turn_off hw), [.turning_off_all], .completed⟩ ∧
      loop_iteration hw leds input =
        checked hw (leds.map (PwmDriver.turn_off hw)) input [.turning_off_all] ∧
      (∀ led ∈ (loop_iteration hw leds input).leds,
        led.is_on = false ∧ led.base.writes.head? = some 0) ∧
      (loop_iteration hw leds input).leds.map PwmDriver.get_duty =
        leds.map PwmDriver.get_duty) := by
  refine ⟨?_, ?_, ?_, ?_⟩
  · intro hshape
    have hd := dispatch_status hw leds (line_of input)
    have hl := loop_iteration_of_completed hw leds leds input "status" 1 _ hshape hd
    exact ⟨hd, hl, fun hm => by rw [hl, checked_of_no_mismatch hw leds input _ hm]⟩
  · intro hshape
    have hd := dispatch_help hw leds (line_of input)
    have hl := loop_iteration_of_completed hw leds leds input "help" 1 _ hshape hd
    exact ⟨hd, hl, fun hm => by rw [hl, checked_of_no_mismatch hw leds input _ hm]⟩
  · intro hshape
    have hd := dispatch_allon hw leds (line_of input)
    have hl : loop_iteration hw leds input =
        ⟨leds.map (PwmDriver.turn_on hw),
          [.prompt, .line_received (line_of input), .turning_on_all], .completed⟩ := by
      rw [loop_iteration_of_completed hw leds _ input "allon" 1 _ hshape hd,
        checked_of_no_mismatch hw _ input _ (not_mismatch_all_on hw leds)]
      rfl
    refine ⟨hl, ?_, ?_, ?_⟩
    · rw [hl]
      intro led hmem
      obtain ⟨d, _, rfl⟩ := List.mem_map.mp hmem
      exact turn_on_is_on hw d
    · rw [hl]
      show (leds.map (PwmDriver.turn_on hw)).map PwmDriver.get_duty = _
      rw [List.map_map]
      exact List.map_congr_left (fun d _ => turn_on_get_duty hw d)
    · intro led _
      constructor
      · intro hon
        rw [turn_on_of_on hw led hon]
      · intro hoff
        rw [turn_on_of_off hw led hoff]
        rfl
  · intro hshape
    have hd := dispatch_alloff hw leds (line_of input)
    have hl := loop_iteration_of_completed hw leds _ input "alloff" 1 _ hshape hd
    refine ⟨hd, hl, ?_, ?_⟩
    · rw [hl]
      show all_dark (safety_check hw (all_off hw leds)).leds
      rcases safety_check_flow hw (all_off hw leds) with h | ⟨pin, h⟩ <;> rw [h]
      · exact all_dark_all_off hw leds
      · exact all_dark_all_off hw _
    · rw [hl]
      show (safety_check hw (all_off hw leds)).leds.map PwmDriver.get_duty = _
      rw [safety_check_get_duty, all_off_get_duty]

/-- Witness for C20: `status`, `help`, `allon` and `alloff` on the constructed
registry. -/
theorem read_only_and_all_channel_commands_witness :
    (has_shape "status".toList "status" 1 ∧
      loop_iteration faithful (leds_init faithful 0) "status".toList =
        ⟨leds_init faithful 0,
          [.prompt, .line_received (line_of "status".toList)] ++
            print_status (leds_init faithful 0), .completed⟩) ∧
    (has_shape "help".toList "help" 1 ∧
      loop_iteration faithful (leds_init faithful 0) "help".toList =
        ⟨leds_init faithful 0,
          [.prompt, .line_received (line_of "help".toList)] ++
            print_help (leds_init faithful 0), .completed⟩) ∧
    (has_shape "allon".toList "allon" 1 ∧
      ∀ led ∈ (loop_iteration faithful (leds_init faithful 0) "allon".toList).leds,
        led.is_on = true) ∧
    (has_shape "alloff".toList "alloff" 1 ∧
      ∀ led ∈ (loop_iteration faithful (leds_init faithful 0) "alloff".toList).leds,
        led.is_on = false ∧ led.base.writes.head? = some 0) :=
  ⟨⟨by decide,
      ((read_only_and_all_channel_commands faithful (leds_init faithful 0)
        "status".toList).1 (by decide)).2.2 (not_mismatch_of_inv _ (registry_inv_init 0))⟩,
    ⟨by decide,
      ((read_only_and_all_channel_commands faithful (leds_init faithful 0)
        "help".toList).2.1 (by decide)).2.2 (not_mismatch_of_inv _ (registry_inv_init 0))⟩,
    ⟨by decide,
      ((read_only_and_all_channel_commands faithful (leds_init faithful 0)
        "allon".toList).2.2.1 (by decide)).2.1⟩,
    ⟨by decide,
      ((read_only_and_all_channel_commands faithful (leds_init faithful 0)
        "alloff".toList).2.2.2 (by decide)).2.2.1⟩⟩

end UVRLed
